import Mathlib

/-! # Vibeserver gateway: a shallow embedding of `main.go`

The development models the three WebSocket handlers of `main.go`
(`handleMonitor`, `handleTerminal`, `handleFiles`), the dispatcher
`handleWebSocket` and the REST handler `DeleteLog`, together with the part of the
persistent store they touch.

Conventions of the embedding:

* a Go `byte` is a `Nat` (the value of the byte); a Go `[]byte`, and a Go `string` that
  holds raw bytes, is a `List Nat`;
* a Go `string` that holds text coming from JSON or from a literal is a Lean `String`;
* calls into libraries and into the operating system (JSON, base64, the file system,
  the clock) are taken from an environment record, so every statement holds for every
  behaviour of the library;
* the database is a record of three tables; `DB.Create` assigns the next free key.
-/

namespace Vibeserver

/-! ## Persistent store -/

/-- The `ActivityLog` row of `main.go` (the preloaded `User` association is left out). -/
structure ActivityLog where
  id : Nat
  userID : Nat
  action : String
  target : String
  details : String
  terminalSessionID : Option Nat
  createdAt : Nat
deriving DecidableEq, Repr

/-- The `TerminalSession` row of `main.go`; `output` holds the raw transcript bytes. -/
structure TerminalSession where
  id : Nat
  userID : Nat
  commands : String
  output : List Nat
  createdAt : Nat
  endedAt : Nat
deriving DecidableEq, Repr

/-- The `FileVersion` row of `main.go`; `content` holds the raw bytes of the snapshot. -/
structure FileVersion where
  id : Nat
  logID : Nat
  path : String
  content : List Nat
  size : Int
  createdAt : Nat
deriving DecidableEq, Repr

/-- The database behind the global `DB` handle: the three tables the handlers use, and
whether the database currently accepts writes (a `DB.Create` or `DB.Delete` on a database
that does not accept writes returns an error, which the handlers ignore). -/
structure Store where
  logs : List ActivityLog
  sessions : List TerminalSession
  versions : List FileVersion
  acceptsWrites : Bool
deriving DecidableEq, Repr

/-- The key the database gives the next inserted row: one more than the largest key
in the table. -/
def nextID (ids : List Nat) : Nat :=
  ids.foldl max 0 + 1

/-- Models `DB.Create(&logEntry)`: inserts the row under a fresh key and writes the key back into
the record; the second component is the `ID` field of the record after the call (still `0`
when the insert failed). -/
def Store.createLog (st : Store) (entry : ActivityLog) : Store × Nat :=
  if st.acceptsWrites then
    let k := nextID (st.logs.map (·.id))
    ({ st with logs := st.logs ++ [{ entry with id := k }] }, k)
  else
    (st, entry.id)

/-- Models `DB.Create(&session)` for a `TerminalSession`. -/
def Store.createSession (st : Store) (s : TerminalSession) : Store × Nat :=
  if st.acceptsWrites then
    let k := nextID (st.sessions.map (·.id))
    ({ st with sessions := st.sessions ++ [{ s with id := k }] }, k)
  else
    (st, s.id)

/-- Models `DB.Create(&version)` for a `FileVersion`. -/
def Store.createVersion (st : Store) (v : FileVersion) : Store × Nat :=
  if st.acceptsWrites then
    let k := nextID (st.versions.map (·.id))
    ({ st with versions := st.versions ++ [{ v with id := k }] }, k)
  else
    (st, v.id)

/-- Models `DB.First(&log, id)`: the `ActivityLog` with the given primary key, if any. -/
def Store.firstLog (st : Store) (id : Nat) : Option ActivityLog :=
  st.logs.find? (fun l => l.id == id)

/-- Models `DB.First(&session, id)` as used by `GetTerminalSession`. -/
def Store.firstSession (st : Store) (id : Nat) : Option TerminalSession :=
  st.sessions.find? (fun s => s.id == id)

/-- Models `DB.Delete(&TerminalSession{}, id)`: removes the rows with that primary key. -/
def Store.deleteSession (st : Store) (id : Nat) : Store :=
  if st.acceptsWrites then
    { st with sessions := st.sessions.filter (fun s => !(s.id == id)) }
  else st

/-- Models `DB.Delete(&log)`: removes the rows whose primary key is that of `log`. -/
def Store.deleteLog (st : Store) (log : ActivityLog) : Store :=
  if st.acceptsWrites then
    { st with logs := st.logs.filter (fun l => !(l.id == log.id)) }
  else st

/-! ## `DeleteLog` -/

/-- The two answers of `DeleteLog`: HTTP 404 "Log not found" and HTTP 200 "Log deleted". -/
inductive DeleteLogResponse where
  | notFound
  | deleted
deriving DecidableEq, Repr

/-- Handler `DeleteLog` (main.go 1156-1171) on the store, for the primary key parsed from the
`:id` path parameter. -/
def DeleteLog (st : Store) (id : Nat) : DeleteLogResponse × Store :=
  match st.firstLog id with
  | none => (.notFound, st)
  | some log =>
    let st1 :=
      match log.terminalSessionID with
      | some sid => st.deleteSession sid
      | none => st
    (.deleted, st1.deleteLog log)

/-! ## `handleWebSocket` -/

/-- What `handleWebSocket` does with the connection. -/
inductive Dispatch where
  | monitor
  | terminal
  | files
  | close
deriving DecidableEq, Repr

/-- Handler `handleWebSocket` (main.go 319-333): the list of calls it makes for the value of the
`type` query parameter (`c.Query` gives the empty string when the parameter is missing). -/
def handleWebSocket (connType : String) : List Dispatch :=
  if connType = "monitor" then [.monitor]
  else if connType = "terminal" then [.terminal]
  else if connType = "files" then [.files]
  else [.close]

/-! ## `handleTerminal` -/

/-- The identity claims attached to a connection: `iss` is the value of
`uint(claims["iss"].(float64))`, and `none` when the claim is missing or not a number. -/
structure Claims where
  iss : Option Nat
  role : String
deriving DecidableEq, Repr

/-- The `sessionUserID` of `handleTerminal` (main.go 508, 522-528): `0` unless the
connection carries claims, and then the numeric `iss` claim (`0` if it is not a number). -/
def sessionUserIDOf (user : Option Claims) : Nat :=
  match user with
  | some claims => claims.iss.getD 0
  | none => 0

/-- The session-tracking variables `sessionCommands` and `commandBuf` of `handleTerminal`. -/
structure Recon where
  sessionCommands : List (List Nat)
  commandBuf : List Nat
deriving DecidableEq, Repr

/-- The body of the loop `for _, b := range msg` (main.go 611-625). -/
def reconByte (s : Recon) (b : Nat) : Recon :=
  if b = 13 then
    if s.commandBuf.length > 0 then
      { sessionCommands := s.sessionCommands ++ [s.commandBuf], commandBuf := [] }
    else s
  else if b = 127 ∨ b = 8 then
    if s.commandBuf.length > 0 then
      { s with commandBuf := s.commandBuf.take (s.commandBuf.length - 1) }
    else s
  else if b ≥ 32 ∧ b ≤ 126 then
    { s with commandBuf := s.commandBuf ++ [b] }
  else s

/-- The loop `for _, b := range msg` (main.go 611-625) over one message. -/
def reconFeed (s : Recon) (msg : List Nat) : Recon :=
  msg.foldl reconByte s

/-- The reference definition of the captured commands, following the words of the
specification: starting from the pending buffer `pending`, byte 13 closes a non-empty
pending buffer into a command (and does nothing on an empty one), byte 8 or 127 drops the
last pending byte, bytes 32..126 are appended, every other byte is ignored, and what is
pending at the end of the input is dropped. -/
def refCommands : List Nat → List Nat → List (List Nat)
  | _, [] => []
  | pending, b :: bs =>
    if b = 13 then
      if pending = [] then refCommands [] bs else pending :: refCommands [] bs
    else if b = 8 ∨ b = 127 then refCommands pending.dropLast bs
    else if 32 ≤ b ∧ b ≤ 126 then refCommands (pending ++ [b]) bs
    else refCommands pending bs

/-- The kind of a frame returned by `c.ReadMessage()`. -/
inductive MsgType where
  | text
  | binary
  | other
deriving DecidableEq, Repr

/-- One inbound frame: `msgType, msg, _ := c.ReadMessage()`. -/
structure Frame where
  msgType : MsgType
  msg : List Nat
deriving DecidableEq, Repr

/-- The anonymous struct `resizeMsg` of `handleTerminal`. -/
structure ResizeMsg where
  type : String
  cols : Int
  rows : Int
deriving DecidableEq, Repr

/-- The library calls `handleTerminal` makes: `unmarshalResize msg` is the value of
`resizeMsg` after `json.Unmarshal(msg, &resizeMsg)` when that returns no error,
`marshalCommands` is `json.Marshal(sessionCommands)`, and `formatDuration d` is
`d.Round(time.Second)` printed with `%s`. -/
structure TermEnv where
  unmarshalResize : List Nat → Option ResizeMsg
  marshalCommands : List (List Nat) → String
  formatDuration : Nat → String

/-- The condition of main.go line 604:
`len(msg) > 0 && msg[0] == '{' && json.Unmarshal(msg, &resizeMsg) == nil &&
resizeMsg.Type == "resize"`; it gives the decoded message when the condition holds. -/
def resizeOf (env : TermEnv) (msg : List Nat) : Option ResizeMsg :=
  match msg with
  | [] => none
  | b :: _ =>
    if b = 123 then
      match env.unmarshalResize msg with
      | some r => if r.type = "resize" then some r else none
      | none => none
    else none

/-- The state of the input loop of `handleTerminal`: the session-tracking variables, the
writes made to the pseudo-terminal (`ptmx.Write`), and the window sizes set
(`pty.Setsize`, as rows and columns). -/
structure TermState where
  recon : Recon
  ptyInput : List (List Nat)
  winsizes : List (Nat × Nat)
deriving DecidableEq, Repr

/-- The state at the start of the input loop. -/
def TermState.init : TermState :=
  { recon := { sessionCommands := [], commandBuf := [] }, ptyInput := [], winsizes := [] }

/-- One iteration of the input loop of `handleTerminal` after a successful
`c.ReadMessage()` (main.go 597-631). -/
def handleFrame (env : TermEnv) (sessionUserID : Nat) (st : TermState) (f : Frame) :
    TermState :=
  match f.msgType with
  | .text =>
    match resizeOf env f.msg with
    | some r =>
      { st with winsizes := st.winsizes ++ [((r.rows % 65536).toNat, (r.cols % 65536).toNat)] }
    | none =>
      let recon1 := if sessionUserID > 0 then reconFeed st.recon f.msg else st.recon
      { st with recon := recon1, ptyInput := st.ptyInput ++ [f.msg] }
  | .binary => { st with ptyInput := st.ptyInput ++ [f.msg] }
  | .other => st

/-- The input loop of `handleTerminal` over the frames read before the loop ends. -/
def runFrames (env : TermEnv) (sessionUserID : Nat) (frames : List Frame) : TermState :=
  frames.foldl (handleFrame env sessionUserID) TermState.init

/-- The clock readings of the deferred function: `time.Now()` for `EndedAt`,
`time.Since(startTime)` for the details, and `time.Now()` for the log's `CreatedAt`. -/
structure TeardownClock where
  endedAt : Nat
  elapsed : Nat
  loggedAt : Nat
deriving DecidableEq, Repr

/-- The deferred function of `handleTerminal` (main.go 531-559), after `ptmx.Close()`:
its effect on the store. `output` is the content of `outputBuf`. -/
def teardown (env : TermEnv) (st : Store) (sessionUserID : Nat) (sessionCommands : List (List Nat))
    (output : List Nat) (startTime : Nat) (clk : TeardownClock) : Store :=
  if sessionUserID > 0 ∧ sessionCommands.length > 0 then
    let session : TerminalSession :=
      { id := 0, userID := sessionUserID, commands := env.marshalCommands sessionCommands,
        output := output, createdAt := startTime, endedAt := clk.endedAt }
    let (st1, sid) := st.createSession session
    (st1.createLog
      { id := 0, userID := sessionUserID, action := "TERMINAL_SESSION", target := "System",
        details := "Terminal Session (" ++ env.formatDuration clk.elapsed ++ ") - " ++
          toString sessionCommands.length ++ " cmds",
        terminalSessionID := some sid, createdAt := clk.loggedAt }).1
  else st

/-- A whole terminal connection whose pseudo-terminal started: the frames are handled in
order, then the deferred function runs. The result is the store after teardown. -/
def handleTerminal (env : TermEnv) (st : Store) (user : Option Claims) (frames : List Frame)
    (output : List Nat) (startTime : Nat) (clk : TeardownClock) : Store :=
  let uid := sessionUserIDOf user
  let final := runFrames env uid frames
  teardown env st uid final.recon.sessionCommands output startTime clk

/-- The well-formedness of the session-tracking variables: every captured command is
non-empty and made of bytes 32..126, and so is every byte of the pending buffer. -/
def ReconOK (r : Recon) : Prop :=
  (∀ c ∈ r.sessionCommands, c ≠ [] ∧ ∀ b ∈ c, 32 ≤ b ∧ b ≤ 126) ∧
    ∀ b ∈ r.commandBuf, 32 ≤ b ∧ b ≤ 126

/-! ## `handleMonitor` -/

/-- The local type `ProcInfo` of `handleMonitor`. The type `F` stands for the floating-point
values; the ranking only compares them, and they are taken to be linearly ordered. -/
structure ProcInfo (F : Type) where
  pid : Int
  user : String
  cpu : F
  mem : F
  command : String
deriving DecidableEq, Repr

/-- The conditional swap `if procList[i].CPU < procList[j].CPU { swap }` of main.go
463-465. -/
def swapIfLess {F : Type} [LinearOrder F] (procList : List (ProcInfo F)) (i j : Nat) :
    List (ProcInfo F) :=
  match procList[i]?, procList[j]? with
  | some a, some b => if a.cpu < b.cpu then (procList.set i b).set j a else procList
  | _, _ => procList

/-- The inner loop `for j := i + 1; j < len(procList); j++` of main.go 462-466. -/
def sortInner {F : Type} [LinearOrder F] (procList : List (ProcInfo F)) (i : Nat) :
    List (ProcInfo F) :=
  (List.range' (i + 1) (procList.length - (i + 1))).foldl (fun acc j => swapIfLess acc i j)
    procList

/-- The outer loop `for i := 0; i < len(procList); i++` of main.go 461-467. -/
def sortByCPU {F : Type} [LinearOrder F] (procList : List (ProcInfo F)) : List (ProcInfo F) :=
  (List.range procList.length).foldl sortInner procList

/-- The process list put in the payload: sorted by the loops above, then cut to ten entries
(main.go 461-472). -/
def topProcesses {F : Type} [LinearOrder F] (procList : List (ProcInfo F)) :
    List (ProcInfo F) :=
  let sorted := sortByCPU procList
  if sorted.length > 10 then sorted.take 10 else sorted

/-- A functional reading of the inner loop: the process that ends at index `i` when the
loop starts with `x` there and passes over `rest`, and what `rest` has become. -/
def passMax {F : Type} [LinearOrder F] (x : ProcInfo F) :
    List (ProcInfo F) → ProcInfo F × List (ProcInfo F)
  | [] => (x, [])
  | y :: ys =>
    if x.cpu < y.cpu then ((passMax y ys).1, x :: (passMax y ys).2)
    else ((passMax x ys).1, y :: (passMax x ys).2)

/-- The reference ranking of the specification: a stable sort by CPU percent descending
(insertion sort keeps equal keys in their original order), truncated to ten entries. -/
def stableTop {F : Type} [LinearOrder F] (procList : List (ProcInfo F)) : List (ProcInfo F) :=
  (procList.insertionSort (fun a b => a.cpu ≥ b.cpu)).take 10

/-- One entry of `net.IOCounters(false)`: the cumulative byte counters (`uint64`). -/
structure IOCountersStat where
  bytesRecv : Nat
  bytesSent : Nat
deriving DecidableEq, Repr

/-- The variables `lastRx`, `lastTx`, `lastTime` of `handleMonitor`. A `time.Time` is the
number of nanoseconds since the zero time, so `IsZero` is `= 0`. -/
structure RateState where
  lastRx : Nat
  lastTx : Nat
  lastTime : Nat
deriving DecidableEq, Repr

/-- The values of `var lastRx, lastTx uint64` and `var lastTime time.Time` before the first
tick. -/
def RateState.init : RateState :=
  { lastRx := 0, lastTx := 0, lastTime := 0 }

/-- The network section of one tick (main.go 366-388): the pair `(rxRate, txRate)` and the
updated variables. The subtraction is that of `uint64`; the division of `float64` values is
taken as exact. -/
def netRates (s : RateState) (now : Nat) (netStat : List IOCountersStat) :
    (ℚ × ℚ) × RateState :=
  let rx := match netStat with
    | c :: _ => c.bytesRecv
    | [] => 0
  let tx := match netStat with
    | c :: _ => c.bytesSent
    | [] => 0
  let rates : ℚ × ℚ :=
    if s.lastTime ≠ 0 then
      let duration : ℚ := ((now : ℚ) - (s.lastTime : ℚ)) / 1000000000
      if duration > 0 then
        ((((rx + 2 ^ 64 - s.lastRx % 2 ^ 64) % 2 ^ 64 : Nat) : ℚ) / duration,
         (((tx + 2 ^ 64 - s.lastTx % 2 ^ 64) % 2 ^ 64 : Nat) : ℚ) / duration)
      else (0, 0)
    else (0, 0)
  (rates, { lastRx := rx, lastTx := tx, lastTime := now })

/-- The parts of the payload of one tick that `handleMonitor` computes itself: the
`network` section and the `processes` list. -/
structure Snapshot (F : Type) where
  rxSec : ℚ
  txSec : ℚ
  processes : List (ProcInfo F)

/-- One tick of `handleMonitor` (main.go 351-497) for the instant `now`, the network
counters `netStat` and the sampled process list `procList` (in enumeration order). -/
def monitorTick {F : Type} [LinearOrder F] (s : RateState) (now : Nat)
    (netStat : List IOCountersStat) (procList : List (ProcInfo F)) :
    Snapshot F × RateState :=
  let r := netRates s now netStat
  ({ rxSec := r.1.1, txSec := r.1.2, processes := topProcesses procList }, r.2)

/-- The calls `handleMonitor` makes into the process library for one tick: `newProcess pid`
is `process.NewProcess(pid)` (`none` on error), `cpuPercent` is `proc.CPUPercent()` (`none` on
error); the errors of the other three calls are ignored by the handler. `H` is the type of
the process handles (`*process.Process`). -/
structure ProcEnv (H F : Type) where
  newProcess : Int → Option H
  cpuPercent : H → Option F
  memoryPercent : H → F
  name : H → String
  username : H → String

/-- The refresh of the cache (main.go 406-415): the entries whose process id is not in the
enumeration `pids` are deleted. The map `procCache` is given by its lookup function. -/
def refreshCache {H : Type} (procCache : Int → Option H) (pids : List Int) : Int → Option H :=
  fun pid => if pid ∈ pids then procCache pid else none

/-- The body of the loop `for _, pid := range pids` (main.go 418-455) on the cache and the
process list collected so far. -/
def sampleStep {H F : Type} (env : ProcEnv H F) (acc : (Int → Option H) × List (ProcInfo F))
    (pid : Int) : (Int → Option H) × List (ProcInfo F) :=
  let found : Option (H × (Int → Option H)) :=
    match acc.1 pid with
    | some proc => some (proc, acc.1)
    | none =>
      match env.newProcess pid with
      | none => none
      | some newProc => some (newProc, fun q => if q = pid then some newProc else acc.1 q)
  match found with
  | none => acc
  | some (proc, cache1) =>
    match env.cpuPercent proc with
    | none => (cache1, acc.2)
    | some cpuP =>
      (cache1, acc.2 ++ [{ pid := pid, user := env.username proc, cpu := cpuP,
                           mem := env.memoryPercent proc, command := env.name proc }])

/-- The process section of one tick before the sort (main.go 396-455): the cache is
refreshed against the enumeration `pids`, then every process id is sampled in order. The
result is the cache after the tick and the sampled process list. -/
def sampleProcesses {H F : Type} (env : ProcEnv H F) (procCache : Int → Option H)
    (pids : List Int) : (Int → Option H) × List (ProcInfo F) :=
  pids.foldl (sampleStep env) (refreshCache procCache pids, [])

/-- The variables of `handleMonitor` that live across ticks: those of the network rates and
the process cache `procCache`. -/
structure MonitorState (H : Type) where
  rate : RateState
  procCache : Int → Option H

/-- One whole tick of `handleMonitor` (main.go 351-497): the processes are sampled through
the cache, then the snapshot is built as in `monitorTick`. -/
def handleMonitorTick {H F : Type} [LinearOrder F] (env : ProcEnv H F) (s : MonitorState H)
    (now : Nat) (netStat : List IOCountersStat) (pids : List Int) :
    Snapshot F × MonitorState H :=
  let sampled := sampleProcesses env s.procCache pids
  let t := monitorTick s.rate now netStat sampled.2
  (t.1, { rate := t.2, procCache := sampled.1 })

/-! ## `handleFiles` -/

/-- A JSON value, as held in a Go `interface{}` and as written by `c.WriteJSON`. The
constructor `raw` is a Go `string` holding raw bytes, `float` a `float64`. -/
inductive JVal where
  | null
  | bool (b : Bool)
  | int (n : Int)
  | float (q : ℚ)
  | str (s : String)
  | raw (bytes : List Nat)
  | arr (items : List JVal)
  | obj (fields : List (String × JVal))

/-- The request type `FileReq`; `data` is `none` for a nil map. -/
structure FileReq where
  action : String
  path : String
  newPath : String
  content : String
  data : Option (List (String × JVal))

/-- The Go map index `req.Data[key]`: the nil interface (JSON `null`) when the map is nil or
has no such key. -/
def FileReq.dataGet (req : FileReq) (key : String) : JVal :=
  match req.data with
  | none => .null
  | some m => (m.lookup key).getD .null

/-- The condition `req.Data != nil && req.Data["encoding"] == "base64"` (main.go 711). -/
def FileReq.isBase64 (req : FileReq) : Bool :=
  match req.dataGet "encoding" with
  | .str s => s == "base64"
  | _ => false

/-- An `os.FileInfo` as returned by `ioutil.ReadDir`. -/
structure FileInfo where
  name : String
  isDir : Bool
  size : Int
  mode : String
  modTime : String
deriving DecidableEq, Repr

/-- The fields of `disk.UsageStat` that `handleFiles` reads. -/
structure UsageStat where
  usedPercent : ℚ
  used : Nat
  total : Nat
  free : Nat

/-- The library and operating-system calls of `handleFiles`. A call that can fail gives its
error text (`err.Error()`): `Except.error msg` for a call with a result, `some msg` for a
call without. `formatGB n` is `fmt.Sprintf("%.1f GB", float64(n)/1024/1024/1024)`. -/
structure FsEnv where
  clean : String → String
  readDir : String → Except String (List FileInfo)
  readFile : String → Except String (List Nat)
  writeFile : String → List Nat → Option String
  removeAll : String → Option String
  mkdirAll : String → Option String
  rename : String → String → Option String
  copy : String → String → Option String
  diskUsage : String → Option UsageStat
  base64Decode : String → Option (List Nat)
  base64Encode : List Nat → String
  formatGB : Nat → String

/-- The conversion `[]byte(s)` of a text string: its UTF-8 bytes. -/
def stringBytes (s : String) : List Nat :=
  s.toList.flatMap (fun c => (String.utf8EncodeChar c).map UInt8.toNat)

/-- A call that changes the file system, as made by `handleFiles`. -/
inductive FsOp where
  | writeFile (path : String) (data : List Nat)
  | removeAll (path : String)
  | mkdirAll (path : String)
  | rename (oldPath newPath : String)
  | copy (src dst : String)
deriving DecidableEq, Repr

/-- The effects of handling one request: the JSON objects written to the connection, the
store afterwards, and the file-system calls made. -/
structure FilesResult where
  responses : List (List (String × JVal))
  store : Store
  fsOps : List FsOp

/-- The lines 653-656 of main.go: `filepath.Clean`, then `.` and the empty path become `/`. -/
def cleanPathOf (env : FsEnv) (path : String) : String :=
  let cleanPath := env.clean path
  if cleanPath = "." ∨ cleanPath = "" then "/" else cleanPath

/-- The entry of the `list` response for one directory entry (main.go 667-680). -/
def listEntry (e : FileInfo) : JVal :=
  .obj [("name", .str e.name), ("type", .str (if e.isDir then "folder" else "file")),
    ("isDir", .bool e.isDir), ("size", .int e.size), ("mode", .str e.mode),
    ("mod", .str e.modTime)]

/-- The counting loop of the `stats` action (main.go 811-818) over the directory entries,
from the counters `(fileCount, folderCount, totalSize)`. -/
def statsLoop (files : List FileInfo) (acc : Int × Int × Int) : Int × Int × Int :=
  files.foldl (fun a f =>
    if f.isDir then (a.1, a.2.1 + 1, a.2.2) else (a.1 + 1, a.2.1, a.2.2 + f.size)) acc

/-- The `write` case of `handleFiles` (main.go 706-763). `user` is the value of
`c.Locals("user")` when it is a claims map; `logAt` and `versionAt` are the two readings of
`time.Now()`. -/
def handleWrite (env : FsEnv) (st : Store) (user : Option Claims) (req : FileReq)
    (cleanPath : String) (logAt versionAt : Nat) : FilesResult :=
  let decoded : Option (List Nat) :=
    if req.isBase64 then env.base64Decode req.content else some (stringBytes req.content)
  match decoded with
  | none =>
    { responses := [[("error", .str "Invalid base64"), ("requestId", req.dataGet "requestId")]],
      store := st, fsOps := [] }
  | some data =>
    match env.writeFile cleanPath data with
    | some err =>
      { responses := [[("success", .bool false), ("error", .str err),
          ("requestId", req.dataGet "requestId")]],
        store := st, fsOps := [.writeFile cleanPath data] }
    | none =>
      let st2 :=
        match user with
        | some claims =>
          let userID := claims.iss.getD 0
          let (st1, logID) := st.createLog
            { id := 0, userID := userID, action := "FILE_WRITE", target := cleanPath,
              details := "Wrote " ++ toString data.length ++ " bytes",
              terminalSessionID := none, createdAt := logAt }
          (st1.createVersion
            { id := 0, logID := logID, path := cleanPath, content := data,
              size := (data.length : Int), createdAt := versionAt }).1
        | none => st
      { responses := [[("success", .bool true), ("action", .str "write"),
          ("requestId", req.dataGet "requestId")]],
        store := st2, fsOps := [.writeFile cleanPath data] }

/-- The answer to an action without a result value (`rm`, `mkdir`, `rename`, `copy`):
main.go 767-771 and the three cases after it. -/
def plainAnswer (action : String) (err : Option String) : List (List (String × JVal)) :=
  match err with
  | some msg => [[("success", .bool false), ("error", .str msg)]]
  | none => [[("success", .bool true), ("action", .str action)]]

/-- One iteration of the loop of `handleFiles` after a successful `c.ReadJSON(&req)`
(main.go 652-867). -/
def handleFilesStep (env : FsEnv) (st : Store) (user : Option Claims) (req : FileReq)
    (logAt versionAt : Nat) : FilesResult :=
  let cleanPath := cleanPathOf env req.path
  if req.action = "list" then
    match env.readDir cleanPath with
    | .error msg =>
      { responses := [[("error", .str msg), ("action", .str "list"), ("path", .str cleanPath)]],
        store := st, fsOps := [] }
    | .ok entries =>
      let files : JVal := if entries.isEmpty then .null else .arr (entries.map listEntry)
      { responses := [[("action", .str "list"), ("path", .str cleanPath), ("data", files)]],
        store := st, fsOps := [] }
  else if req.action = "cat" then
    match env.readFile cleanPath with
    | .error msg =>
      { responses := [[("error", .str msg), ("action", .str "cat")]], store := st, fsOps := [] }
    | .ok data =>
      { responses := [[("action", .str "cat"), ("path", .str cleanPath), ("content", .raw data)]],
        store := st, fsOps := [] }
  else if req.action = "read" then
    match env.readFile cleanPath with
    | .error msg =>
      { responses := [[("error", .str msg), ("requestId", req.dataGet "requestId")]],
        store := st, fsOps := [] }
    | .ok data =>
      { responses := [[("success", .bool true), ("action", .str "read"),
          ("data", .str (env.base64Encode data)), ("requestId", req.dataGet "requestId")]],
        store := st, fsOps := [] }
  else if req.action = "write" then
    handleWrite env st user req cleanPath logAt versionAt
  else if req.action = "rm" then
    { responses := plainAnswer "rm" (env.removeAll cleanPath), store := st,
      fsOps := [.removeAll cleanPath] }
  else if req.action = "mkdir" then
    { responses := plainAnswer "mkdir" (env.mkdirAll cleanPath), store := st,
      fsOps := [.mkdirAll cleanPath] }
  else if req.action = "rename" then
    let cleanNew := env.clean req.newPath
    { responses := plainAnswer "rename" (env.rename cleanPath cleanNew), store := st,
      fsOps := [.rename cleanPath cleanNew] }
  else if req.action = "copy" then
    let cleanNew := env.clean req.newPath
    { responses := plainAnswer "copy" (env.copy cleanPath cleanNew), store := st,
      fsOps := [.copy cleanPath cleanNew] }
  else if req.action = "stats" then
    let counts : Int × Int × Int :=
      match env.readDir cleanPath with
      | .ok files => statsLoop files (0, 0, 0)
      | .error _ => (0, 0, 0)
    { responses := [[("success", .bool true), ("action", .str "stats"),
        ("data", .obj [("fileCount", .int counts.1), ("folderCount", .int counts.2.1),
          ("totalSize", .int counts.2.2)])]],
      store := st, fsOps := [] }
  else if req.action = "diskusage" then
    let u : Option UsageStat :=
      match env.diskUsage cleanPath with
      | some u => some u
      | none => env.diskUsage "/"
    let data : JVal :=
      match u with
      | some u => .obj [("usedPercent", .float u.usedPercent),
          ("usedStr", .str (env.formatGB u.used)), ("totalStr", .str (env.formatGB u.total)),
          ("freeStr", .str (env.formatGB u.free))]
      | none => .obj [("usedPercent", .float 0), ("usedStr", .str "0 GB"),
          ("totalStr", .str "0 GB"), ("freeStr", .str "0 GB")]
    { responses := [[("success", .bool true), ("action", .str "diskusage"), ("data", data)]],
      store := st, fsOps := [] }
  else if req.action = "get_logs" then
    { responses := [[("success", .bool true), ("action", .str "get_logs"), ("data", .arr [])]],
      store := st, fsOps := [] }
  else
    { responses := [], store := st, fsOps := [] }

/-- The failure of the operation a request asks for, with its error text, as the environment
decides it: the directory or the file cannot be read, the content is not valid base64 or the
file cannot be written, or the change to the file system is refused. The actions `stats` and
`diskusage` have no failure. -/
def failureOf (env : FsEnv) (req : FileReq) : Option String :=
  let cleanPath := cleanPathOf env req.path
  if req.action = "list" then
    match env.readDir cleanPath with
    | .error msg => some msg
    | .ok _ => none
  else if req.action = "cat" then
    match env.readFile cleanPath with
    | .error msg => some msg
    | .ok _ => none
  else if req.action = "read" then
    match env.readFile cleanPath with
    | .error msg => some msg
    | .ok _ => none
  else if req.action = "write" then
    match (if req.isBase64 then env.base64Decode req.content
      else some (stringBytes req.content)) with
    | none => some "Invalid base64"
    | some data => env.writeFile cleanPath data
  else if req.action = "rm" then env.removeAll cleanPath
  else if req.action = "mkdir" then env.mkdirAll cleanPath
  else if req.action = "rename" then env.rename cleanPath (env.clean req.newPath)
  else if req.action = "copy" then env.copy cleanPath (env.clean req.newPath)
  else none

/-- The shape of the response to a request with the given action whose operation succeeded
(`failure = none`) or failed with an error text: a success response has no `error` field
and names the action; a failure response carries the error text, and it names the action
for `list` and `cat` and has no `action` field for any other action. -/
def ResponseFor (action : String) (failure : Option String) (r : List (String × JVal)) :
    Prop :=
  match failure with
  | none => List.lookup "error" r = none ∧ List.lookup "action" r = some (JVal.str action)
  | some msg =>
    List.lookup "error" r = some (JVal.str msg) ∧
      List.lookup "action" r =
        (if action = "list" ∨ action = "cat" then some (JVal.str action) else none)

/-- The bytes a `write` request asks to write: the decoded content when the encoding is
base64, the bytes of the content otherwise. -/
def WriteData (env : FsEnv) (req : FileReq) (data : List Nat) : Prop :=
  (req.isBase64 = true ∧ env.base64Decode req.content = some data) ∨
    (req.isBase64 = false ∧ data = stringBytes req.content)

/-! ## Sample environments for the examples -/

/-- An empty database that accepts writes. -/
def emptyStore : Store :=
  { logs := [], sessions := [], versions := [], acceptsWrites := true }

/-- A terminal environment for the examples: no message decodes as a resize message,
commands are listed between brackets without escaping, durations are printed in seconds. -/
def sampleTermEnv : TermEnv :=
  { unmarshalResize := fun _ => none,
    marshalCommands := fun cmds =>
      "[" ++ ",".intercalate (cmds.map (fun c => "\"" ++ String.mk (c.map Char.ofNat) ++ "\"")) ++
        "]",
    formatDuration := fun d => toString d ++ "s" }

/-- The value of a character of the standard base64 alphabet. -/
def b64Digit (c : Nat) : Option Nat :=
  if 65 ≤ c ∧ c ≤ 90 then some (c - 65)
  else if 97 ≤ c ∧ c ≤ 122 then some (c - 97 + 26)
  else if 48 ≤ c ∧ c ≤ 57 then some (c - 48 + 52)
  else if c = 43 then some 62
  else if c = 47 then some 63
  else none

/-- Standard base64 decoding with padding of a list of character codes, four characters at
a time; `=` (61) may only pad the last group. -/
def b64Quanta : List Nat → Option (List Nat)
  | [] => some []
  | a :: b :: c :: d :: rest =>
    match b64Digit a, b64Digit b with
    | some x, some y =>
      if c = 61 ∧ d = 61 ∧ rest.isEmpty then some [(x * 4 + y / 16) % 256]
      else
        match b64Digit c with
        | some z =>
          if d = 61 ∧ rest.isEmpty then
            some [(x * 4 + y / 16) % 256, (y % 16 * 16 + z / 4) % 256]
          else
            match b64Digit d with
            | some w =>
              (b64Quanta rest).map (fun t =>
                (x * 4 + y / 16) % 256 :: (y % 16 * 16 + z / 4) % 256 ::
                  (z % 4 * 64 + w) % 256 :: t)
            | none => none
        | none => none
    | _, _ => none
  | _ => none

/-- A decoder in the manner of `base64.StdEncoding.DecodeString`: carriage returns and line
feeds are skipped, the rest must be padded standard base64. -/
def base64StdDecode (s : String) : Option (List Nat) :=
  b64Quanta ((s.toList.map Char.toNat).filter (fun c => c ≠ 13 ∧ c ≠ 10))

/-- The character of the standard base64 alphabet for a six-bit value. -/
def b64Char (n : Nat) : Char :=
  if n < 26 then Char.ofNat (n + 65)
  else if n < 52 then Char.ofNat (n - 26 + 97)
  else if n < 62 then Char.ofNat (n - 52 + 48)
  else if n = 62 then Char.ofNat 43
  else Char.ofNat 47

/-- Standard base64 encoding with padding, three bytes at a time. -/
def b64Encode : List Nat → List Char
  | [] => []
  | [a] => [b64Char (a / 4), b64Char (a % 4 * 16), Char.ofNat 61, Char.ofNat 61]
  | [a, b] => [b64Char (a / 4), b64Char (a % 4 * 16 + b / 16), b64Char (b % 16 * 4), Char.ofNat 61]
  | a :: b :: c :: rest =>
    b64Char (a / 4) :: b64Char (a % 4 * 16 + b / 16) :: b64Char (b % 16 * 4 + c / 64) ::
      b64Char (c % 64) :: b64Encode rest

/-- A file-system environment for the examples: the paths of the examples are clean already,
there is nothing to read, and every change succeeds. -/
def sampleFs : FsEnv :=
  { clean := fun p => p,
    readDir := fun _ => .error "no such file or directory",
    readFile := fun _ => .error "no such file or directory",
    writeFile := fun _ _ => none,
    removeAll := fun _ => none,
    mkdirAll := fun _ => none,
    rename := fun _ _ => none,
    copy := fun _ _ => none,
    diskUsage := fun _ => none,
    base64Decode := base64StdDecode,
    base64Encode := fun data => String.mk (b64Encode data),
    formatGB := fun n => toString (n / 1073741824) ++ " GB" }

/-- The identity of the examples: user 1, an administrator. -/
def sampleClaims : Claims :=
  { iss := some 1, role := "admin" }

/-- The frame of the examples: the bytes of "ls" followed by a carriage return. -/
def lsBytes : List Nat := [108, 115, 13]

/-- The store of the example of claim C8: log 7 links session 3. -/
def storeLog7 : Store :=
  { logs := [
      { id := 7, userID := 1, action := "TERMINAL_SESSION", target := "System",
        details := "Terminal Session (5s) - 1 cmds", terminalSessionID := some 3,
        createdAt := 10 }],
    sessions := [
      { id := 3, userID := 1, commands := "[\"ls\"]", output := [], createdAt := 5,
        endedAt := 10 }],
    versions := [], acceptsWrites := true }

/-- The request of the example of claim C4: content "%%%" with encoding base64. -/
def badBase64Req : FileReq :=
  { action := "write", path := "/tmp/a.txt", newPath := "", content := "%%%",
    data := some [("encoding", JVal.str "base64"), ("requestId", JVal.int 42)] }

/-- The request of the example of claim C3: the text "hello" written to /tmp/a.txt. -/
def helloReq : FileReq :=
  { action := "write", path := "/tmp/a.txt", newPath := "", content := "hello",
    data := some [("requestId", JVal.int 7)] }

/-- Three processes, two of them with the same CPU percent. -/
def tiedProcs : List (ProcInfo Nat) :=
  [{ pid := 1, user := "root", cpu := 1, mem := 0, command := "a" },
   { pid := 2, user := "root", cpu := 1, mem := 0, command := "b" },
   { pid := 3, user := "root", cpu := 2, mem := 0, command := "c" }]

/-- The actions the specification lists as supported. -/
def supportedActions : List String :=
  ["list", "cat", "read", "write", "rm", "mkdir", "rename", "copy", "stats", "diskusage"]

/-- The bytes of the resize control message of the examples. -/
def resizeMsgBytes : List Nat :=
  stringBytes "\x7b\"type\":\"resize\",\"cols\":80,\"rows\":24\x7d"

/-- A terminal environment for the examples of resize messages: it decodes the resize
message of the examples, also after a leading blank, as `json.Unmarshal` does, and nothing
else. -/
def resizeTermEnv : TermEnv :=
  { unmarshalResize := fun msg =>
      if msg = resizeMsgBytes ∨ msg = 32 :: resizeMsgBytes then
        some { type := "resize", cols := 80, rows := 24 }
      else none,
    marshalCommands := sampleTermEnv.marshalCommands,
    formatDuration := sampleTermEnv.formatDuration }

/-- The elements of a path between slashes (character code 47). -/
def splitOnSlash : List Nat → List (List Nat)
  | [] => [[]]
  | c :: cs =>
    if c = 47 then [] :: splitOnSlash cs
    else
      match splitOnSlash cs with
      | [] => [[c]]
      | seg :: segs => (c :: seg) :: segs

/-- One path element in lexical cleaning; `stack` holds the elements kept so far, the last
one first. Empty elements and `.` are dropped; `..` removes the last kept element, unless
there is none or it is `..` itself, and then `..` is kept for a path that is not rooted. -/
def cleanElem (rooted : Bool) (stack : List (List Nat)) (elem : List Nat) : List (List Nat) :=
  if elem = [] ∨ elem = [46] then stack
  else if elem = [46, 46] then
    match stack with
    | top :: rest =>
      if top = [46, 46] then (if rooted then stack else elem :: stack) else rest
    | [] => if rooted then [] else [elem]
  else elem :: stack

/-- A lexical path cleaner in the manner of `filepath.Clean` on Unix: multiple slashes, `.`
elements and inner `..` elements are removed, and the empty result is `.`. -/
def lexicalClean (path : String) : String :=
  let codes := path.toList.map Char.toNat
  let rooted : Bool := decide (codes.head? = some 47)
  let stack := (splitOnSlash codes).foldl (cleanElem rooted) []
  let body := List.intercalate [47] stack.reverse
  let out := if rooted then 47 :: body else body
  if out.isEmpty then "." else String.mk (out.map Char.ofNat)

/-- A file-system environment like `sampleFs` whose paths go through `lexicalClean`. -/
def unixFs : FsEnv :=
  { sampleFs with clean := lexicalClean }

/-- A file-system environment for the examples of failures: a read-only file system, on
which every change fails. -/
def readOnlyFs : FsEnv :=
  { sampleFs with
    writeFile := fun _ _ => some "read-only file system",
    removeAll := fun _ => some "read-only file system",
    mkdirAll := fun _ => some "read-only file system",
    rename := fun _ _ => some "read-only file system",
    copy := fun _ _ => some "exit status 1" }

/-- A file-system environment for the examples of `stats`: every directory holds one
sub-directory of size 4096 and one file of size 10. -/
def dirFs : FsEnv :=
  { sampleFs with
    readDir := fun _ => .ok
      [{ name := "sub", isDir := true, size := 4096, mode := "drwxr-xr-x", modTime := "" },
       { name := "a.txt", isDir := false, size := 10, mode := "-rw-r--r--", modTime := "" }] }

/-- An empty database that rejects writes. -/
def lockedStore : Store :=
  { logs := [], sessions := [], versions := [], acceptsWrites := false }

/-- A request to remove /tmp/a.txt. -/
def rmReq : FileReq :=
  { action := "rm", path := "/tmp/a.txt", newPath := "", content := "", data := none }

/-- A request for the statistics of /tmp. -/
def statsReq : FileReq :=
  { action := "stats", path := "/tmp", newPath := "", content := "", data := none }

/-- A process environment for the examples: handles are the process ids themselves, every
process can be opened, and the CPU percent of process `pid` is `pid % 7`. -/
def sampleProcEnv : ProcEnv Int Nat :=
  { newProcess := fun pid => some pid,
    cpuPercent := fun h => some (h % 7).toNat,
    memoryPercent := fun _ => 0,
    name := fun h => "proc" ++ toString h,
    username := fun _ => "root" }

/-! ## Command reconstruction -/

/-- The commands captured by the loop from any state: those already captured, followed by
the reference commands of the input from the pending buffer. -/
theorem reconFeed_sessionCommands (bytes : List Nat) (s : Recon) :
    (reconFeed s bytes).sessionCommands = s.sessionCommands ++ refCommands s.commandBuf bytes := by
  induction bytes generalizing s with
  | nil => simp [reconFeed, refCommands]
  | cons b bs ih =>
    have step : reconFeed s (b :: bs) = reconFeed (reconByte s b) bs := rfl
    rw [step, ih, refCommands]
    unfold reconByte
    by_cases h13 : b = 13
    · by_cases hbuf : s.commandBuf = []
      · simp [h13, hbuf]
      · have hpos : 0 < s.commandBuf.length := List.length_pos.mpr hbuf
        simp [h13, hbuf, hpos]
    · by_cases hbs : b = 127 ∨ b = 8
      · have hbs2 : b = 8 ∨ b = 127 := hbs.symm
        by_cases hbuf : s.commandBuf = []
        · simp [h13, hbs, hbs2, hbuf]
        · have hpos : 0 < s.commandBuf.length := List.length_pos.mpr hbuf
          simp [h13, hbs, hbs2, hpos, List.dropLast_eq_take]
      · have hbs2 : ¬ (b = 8 ∨ b = 127) := fun h => hbs h.symm
        by_cases hp : b ≥ 32 ∧ b ≤ 126
        · have hp2 : 32 ≤ b ∧ b ≤ 126 := hp
          simp [h13, hbs, hbs2, hp2]
        · have hp2 : ¬ (32 ≤ b ∧ b ≤ 126) := hp
          simp [h13, hbs, hbs2, hp2]

/-- Claim C1: for every sequence of bytes fed to the command-reconstruction loop of
`handleTerminal` from an empty command list and an empty pending buffer, the resulting
command list is the reference one: byte 13 closes a non-empty pending buffer into a command
and does nothing on an empty one, byte 8 or 127 drops the last pending byte, bytes 32..126
are appended, other bytes are ignored, and the bytes pending at the end are not a command. -/
theorem reconFeed_eq_refCommands (bytes : List Nat) :
    (reconFeed { sessionCommands := [], commandBuf := [] } bytes).sessionCommands =
      refCommands [] bytes := by
  simpa using reconFeed_sessionCommands bytes { sessionCommands := [], commandBuf := [] }

/-! ## Dispatch -/

/-- Claim C9: for every protocol selector, `handleWebSocket` makes exactly one call: the
monitor, terminal or file handler when the selector is "monitor", "terminal" or "files",
and for every other selector (the empty one of a missing parameter included) no handler
but the closing of the connection. -/
theorem handleWebSocket_dispatch (connType : String) :
    (handleWebSocket "monitor" = [Dispatch.monitor] ∧
      handleWebSocket "terminal" = [Dispatch.terminal] ∧
      handleWebSocket "files" = [Dispatch.files] ∧
      handleWebSocket "" = [Dispatch.close]) ∧
    ((handleWebSocket connType = [Dispatch.monitor] ↔ connType = "monitor") ∧
      (handleWebSocket connType = [Dispatch.terminal] ↔ connType = "terminal") ∧
      (handleWebSocket connType = [Dispatch.files] ↔ connType = "files") ∧
      (handleWebSocket connType = [Dispatch.close] ↔
        (connType ≠ "monitor" ∧ connType ≠ "terminal" ∧ connType ≠ "files"))) := by
  refine ⟨⟨by decide, by decide, by decide, by decide⟩, ?_⟩
  unfold handleWebSocket
  by_cases h1 : connType = "monitor"
  · subst h1; simp
  · by_cases h2 : connType = "terminal"
    · subst h2; simp
    · by_cases h3 : connType = "files"
      · subst h3; simp
      · simp [h1, h2, h3]

/-! ## Network rates -/

/-- Claim C7: on the first tick of a metrics connection the reported `rx_sec` and `tx_sec` are
both exactly 0, whatever the instant, the network counters and the sampled processes. -/
theorem first_tick_rates_zero {F : Type} [LinearOrder F] (now : Nat)
    (netStat : List IOCountersStat) (procList : List (ProcInfo F)) :
    (monitorTick RateState.init now netStat procList).1.rxSec = 0 ∧
      (monitorTick RateState.init now netStat procList).1.txSec = 0 := by
  simp [monitorTick, netRates, RateState.init]

/-! ## `DeleteLog` -/

/-- After `deleteSession` on a store that accepts writes no session has the key. -/
theorem firstSession_deleteSession (st : Store) (sid : Nat) (hw : st.acceptsWrites = true) :
    (st.deleteSession sid).firstSession sid = none := by
  simp [Store.deleteSession, Store.firstSession, hw, List.find?_eq_none]

/-- After `deleteLog` on a store that accepts writes no log has the key of the deleted one. -/
theorem firstLog_deleteLog (st : Store) (log : ActivityLog) (hw : st.acceptsWrites = true) :
    (st.deleteLog log).firstLog log.id = none := by
  simp [Store.deleteLog, Store.firstLog, hw, List.find?_eq_none]

/-- The log found by `firstLog` has the key asked for. -/
theorem firstLog_id (st : Store) (id : Nat) (log : ActivityLog)
    (h : st.firstLog id = some log) : log.id = id := by
  have := List.find?_some h
  simpa using this

/-- Claim C8: for every store that accepts writes and every log id, if an ActivityLog with
that id exists then `DeleteLog` answers "deleted" and afterwards that ActivityLog is not
retrievable, and neither is the TerminalSession it links, if it links one; if no ActivityLog
with that id exists, `DeleteLog` answers not-found and leaves the store unchanged. -/
theorem DeleteLog_cascades (st : Store) (id : Nat) (hw : st.acceptsWrites = true) :
    (∀ log, st.firstLog id = some log →
      (DeleteLog st id).1 = DeleteLogResponse.deleted ∧
      (DeleteLog st id).2.firstLog id = none ∧
      ∀ sid, log.terminalSessionID = some sid → (DeleteLog st id).2.firstSession sid = none) ∧
    (st.firstLog id = none → DeleteLog st id = (DeleteLogResponse.notFound, st)) := by
  constructor
  · intro log hlog
    have hid := firstLog_id st id log hlog
    cases hsid : log.terminalSessionID with
    | none =>
      refine ⟨by simp [DeleteLog, hlog], ?_, by simp⟩
      simp only [DeleteLog, hlog, hsid]
      rw [← hid]
      exact firstLog_deleteLog st log hw
    | some sid =>
      have hw1 : (st.deleteSession sid).acceptsWrites = true := by
        simp [Store.deleteSession, hw]
      refine ⟨by simp [DeleteLog, hlog], ?_, ?_⟩
      · simp only [DeleteLog, hlog, hsid]
        rw [← hid]
        exact firstLog_deleteLog _ log hw1
      · intro sid2 h2
        cases h2
        simp only [DeleteLog, hlog, hsid]
        have := firstSession_deleteSession st sid hw
        simpa [Store.deleteLog, hw1, Store.firstSession] using this
  · intro hnone
    simp [DeleteLog, hnone]

/-- Witness of claim C8: deleting log 7, which links session 3, leaves neither retrievable. -/
theorem DeleteLog_cascades_witness :
    storeLog7.acceptsWrites = true ∧
    (storeLog7.firstLog 7).map (·.terminalSessionID) = some (some 3) ∧
    (DeleteLog storeLog7 7).2.firstLog 7 = none ∧
    (DeleteLog storeLog7 7).2.firstSession 3 = none ∧
    (storeLog7.firstLog 8 = none →
      DeleteLog storeLog7 8 = (DeleteLogResponse.notFound, storeLog7)) :=
  ⟨rfl, by decide,
    ((DeleteLog_cascades storeLog7 7 rfl).1 _ rfl).2.1,
    ((DeleteLog_cascades storeLog7 7 rfl).1 _ rfl).2.2 3 rfl,
    (DeleteLog_cascades storeLog7 8 rfl).2⟩

/-! ## Terminal sessions -/

/-- A connection without claims has session user id 0. -/
theorem sessionUserIDOf_none : sessionUserIDOf none = 0 := rfl

/-- With session user id 0 the teardown leaves the store as it is. -/
theorem teardown_zero (env : TermEnv) (st : Store) (cmds : List (List Nat)) (output : List Nat)
    (startTime : Nat) (clk : TeardownClock) :
    teardown env st 0 cmds output startTime clk = st := by
  simp [teardown]

/-- Claim C2: at teardown of a terminal connection whose pseudo-terminal started, on a store
that accepts writes, exactly one TerminalSession (owner, command list, transcript) and one
TERMINAL_SESSION ActivityLog linking it are added when the connection's identity is known
(its user id is not 0) and the command list is non-empty, and otherwise the store is left
unchanged; a connection without identity persists nothing whatever it sends, in particular
when it sends the bytes of "ls" and a carriage return. -/
theorem terminal_session_persisted_iff (env : TermEnv) (st : Store) (user : Option Claims)
    (frames : List Frame) (output : List Nat) (startTime : Nat) (clk : TeardownClock)
    (hw : st.acceptsWrites = true) :
    ((0 < sessionUserIDOf user ∧
        (runFrames env (sessionUserIDOf user) frames).recon.sessionCommands ≠ []) →
      ∃ sess log,
        (handleTerminal env st user frames output startTime clk).sessions =
          st.sessions ++ [sess] ∧
        (handleTerminal env st user frames output startTime clk).logs = st.logs ++ [log] ∧
        (handleTerminal env st user frames output startTime clk).versions = st.versions ∧
        sess.userID = sessionUserIDOf user ∧
        sess.commands = env.marshalCommands
          (runFrames env (sessionUserIDOf user) frames).recon.sessionCommands ∧
        sess.output = output ∧
        log.action = "TERMINAL_SESSION" ∧
        log.userID = sessionUserIDOf user ∧
        log.terminalSessionID = some sess.id) ∧
    (¬ (0 < sessionUserIDOf user ∧
        (runFrames env (sessionUserIDOf user) frames).recon.sessionCommands ≠ []) →
      handleTerminal env st user frames output startTime clk = st) ∧
    handleTerminal env st none frames output startTime clk = st ∧
    handleTerminal env st none [⟨MsgType.text, lsBytes⟩] output startTime clk = st := by
  refine ⟨?_, ?_, ?_, ?_⟩
  · rintro ⟨hid, hcmds⟩
    have hlen : 0 < (runFrames env (sessionUserIDOf user) frames).recon.sessionCommands.length :=
      List.length_pos.mpr hcmds
    simp [handleTerminal, teardown, hid, hlen, Store.createSession, Store.createLog, hw]
  · intro hnot
    have hlen : ¬ (0 < sessionUserIDOf user ∧
        0 < (runFrames env (sessionUserIDOf user) frames).recon.sessionCommands.length) := by
      rintro ⟨h1, h2⟩
      exact hnot ⟨h1, List.length_pos.mp h2⟩
    simp only [handleTerminal, teardown, gt_iff_lt]
    rw [if_neg hlen]
  · simp [handleTerminal, sessionUserIDOf_none, teardown_zero]
  · simp [handleTerminal, sessionUserIDOf_none, teardown_zero]

/-- Witness of claim C2: user 1 typing "ls" and a carriage return in a text frame gets one
session and one log in the empty store. -/
theorem terminal_session_persisted_witness :
    emptyStore.acceptsWrites = true ∧
    (0 < sessionUserIDOf (some sampleClaims) ∧
      (runFrames sampleTermEnv (sessionUserIDOf (some sampleClaims))
        [⟨MsgType.text, lsBytes⟩]).recon.sessionCommands ≠ []) ∧
    (∃ sess log,
      (handleTerminal sampleTermEnv emptyStore (some sampleClaims) [⟨MsgType.text, lsBytes⟩]
        [36, 32] 5 ⟨10, 5, 10⟩).sessions = emptyStore.sessions ++ [sess] ∧
      (handleTerminal sampleTermEnv emptyStore (some sampleClaims) [⟨MsgType.text, lsBytes⟩]
        [36, 32] 5 ⟨10, 5, 10⟩).logs = emptyStore.logs ++ [log] ∧
      (handleTerminal sampleTermEnv emptyStore (some sampleClaims) [⟨MsgType.text, lsBytes⟩]
        [36, 32] 5 ⟨10, 5, 10⟩).versions = emptyStore.versions ∧
      sess.userID = sessionUserIDOf (some sampleClaims) ∧
      sess.commands = sampleTermEnv.marshalCommands
        (runFrames sampleTermEnv (sessionUserIDOf (some sampleClaims))
          [⟨MsgType.text, lsBytes⟩]).recon.sessionCommands ∧
      sess.output = [36, 32] ∧
      log.action = "TERMINAL_SESSION" ∧
      log.userID = sessionUserIDOf (some sampleClaims) ∧
      log.terminalSessionID = some sess.id) :=
  ⟨rfl, by decide,
    (terminal_session_persisted_iff sampleTermEnv emptyStore (some sampleClaims)
      [⟨MsgType.text, lsBytes⟩] [36, 32] 5 ⟨10, 5, 10⟩ rfl).1 (by decide)⟩

/-! ## Input frames -/

/-- Counterexample to claim C10 as stated: the bytes of "ls" and a carriage return, sent in
a binary frame by user 1, are written to the pseudo-terminal but leave the command list
empty, although feeding them to the reconstruction loop gives the command "ls"; the same
bytes in a text frame of a connection without identity (user id 0) are not fed either. -/
theorem binary_frame_not_reconstructed :
    (∀ env : TermEnv,
      resizeOf env lsBytes = none ∧
      (handleFrame env 1 TermState.init ⟨MsgType.binary, lsBytes⟩).ptyInput = [lsBytes] ∧
      (handleFrame env 1 TermState.init ⟨MsgType.binary, lsBytes⟩).recon.sessionCommands =
        [] ∧
      (handleFrame env 0 TermState.init ⟨MsgType.text, lsBytes⟩).ptyInput = [lsBytes] ∧
      (handleFrame env 0 TermState.init ⟨MsgType.text, lsBytes⟩).recon.sessionCommands = []) ∧
    (reconFeed TermState.init.recon lsBytes).sessionCommands = [[108, 115]] := by
  refine ⟨fun env => ⟨?_, ?_, ?_, ?_, ?_⟩, by decide⟩
  · simp [resizeOf, lsBytes]
  · simp [handleFrame, TermState.init]
  · simp [handleFrame, TermState.init]
  · simp [handleFrame, resizeOf, lsBytes, TermState.init]
  · simp [handleFrame, resizeOf, lsBytes, TermState.init]

/-- Claim C10, amended: every binary frame is written to the pseudo-terminal input and
changes nothing else; every text frame that is not a resize control message is written to
the pseudo-terminal input, leaves the window size alone, and is fed byte by byte into the
command reconstruction exactly when the connection's user id is not 0, the command list
and the pending buffer staying unchanged otherwise. -/
theorem handleFrame_input (env : TermEnv) (sessionUserID : Nat) (st : TermState) (msg : List Nat) :
    handleFrame env sessionUserID st ⟨MsgType.binary, msg⟩ =
      { st with ptyInput := st.ptyInput ++ [msg] } ∧
    (resizeOf env msg = none →
      (handleFrame env sessionUserID st ⟨MsgType.text, msg⟩).ptyInput = st.ptyInput ++ [msg] ∧
      (handleFrame env sessionUserID st ⟨MsgType.text, msg⟩).winsizes = st.winsizes ∧
      (0 < sessionUserID →
        (handleFrame env sessionUserID st ⟨MsgType.text, msg⟩).recon =
          reconFeed st.recon msg) ∧
      (sessionUserID = 0 →
        (handleFrame env sessionUserID st ⟨MsgType.text, msg⟩).recon = st.recon)) := by
  refine ⟨rfl, fun hres => ⟨?_, ?_, ?_, ?_⟩⟩
  · simp [handleFrame, hres]
  · simp [handleFrame, hres]
  · intro hpos
    simp [handleFrame, hres, hpos]
  · intro hzero
    simp [handleFrame, hres, hzero]

/-! ## File writes -/

/-- Reading the selector of the encoding: a request whose `encoding` is the string "base64"
takes the base64 branch. -/
theorem isBase64_of_encoding (req : FileReq) (h : req.dataGet "encoding" = JVal.str "base64") :
    req.isBase64 = true := by
  simp [FileReq.isBase64, h]

/-- Claim C4: for every write request whose data has encoding "base64" and whose content the
decoder rejects, the handler answers with the error "Invalid base64" and the request's
requestId, leaves the store unchanged (no ActivityLog, no FileVersion) and makes no call
that writes the file. -/
theorem write_invalid_base64 (env : FsEnv) (st : Store) (user : Option Claims) (req : FileReq)
    (logAt versionAt : Nat) (haction : req.action = "write")
    (henc : req.dataGet "encoding" = JVal.str "base64")
    (hbad : env.base64Decode req.content = none) :
    (handleFilesStep env st user req logAt versionAt).responses =
      [[("error", JVal.str "Invalid base64"), ("requestId", req.dataGet "requestId")]] ∧
    (handleFilesStep env st user req logAt versionAt).store = st ∧
    (handleFilesStep env st user req logAt versionAt).fsOps = [] := by
  have hb := isBase64_of_encoding req henc
  simp [handleFilesStep, haction, handleWrite, hb, hbad]

/-- Witness of claim C4: the content "%%%" with encoding base64 is answered with
"Invalid base64" and request id 42, and nothing is stored or written. -/
theorem write_invalid_base64_witness :
    (handleFilesStep sampleFs emptyStore (some sampleClaims) badBase64Req 10 11).responses =
      [[("error", JVal.str "Invalid base64"), ("requestId", JVal.int 42)]] ∧
    (handleFilesStep sampleFs emptyStore (some sampleClaims) badBase64Req 10 11).store =
      emptyStore ∧
    (handleFilesStep sampleFs emptyStore (some sampleClaims) badBase64Req 10 11).fsOps = [] :=
  write_invalid_base64 sampleFs emptyStore (some sampleClaims) badBase64Req 10 11 rfl rfl
    (by decide)

/-- Claim C3: for every write request by a known identity on a store that accepts writes,
whose file write of the bytes `data` (the decoded bytes when the encoding is base64, the
bytes of the content otherwise) to the normalised path succeeds, the handler adds exactly one
ActivityLog, with action FILE_WRITE and the path as target, and exactly one FileVersion, with
that path, size the number of bytes, content the bytes written and log id the id of that
ActivityLog; the file is written once with these bytes. -/
theorem write_creates_log_and_version (env : FsEnv) (st : Store) (claims : Claims)
    (req : FileReq) (logAt versionAt : Nat) (data : List Nat)
    (hw : st.acceptsWrites = true) (haction : req.action = "write")
    (hdata : (req.isBase64 = true ∧ env.base64Decode req.content = some data) ∨
      (req.isBase64 = false ∧ data = stringBytes req.content))
    (hok : env.writeFile (cleanPathOf env req.path) data = none) :
    ∃ log version,
      (handleFilesStep env st (some claims) req logAt versionAt).store.logs = st.logs ++ [log] ∧
      (handleFilesStep env st (some claims) req logAt versionAt).store.versions =
        st.versions ++ [version] ∧
      (handleFilesStep env st (some claims) req logAt versionAt).store.sessions = st.sessions ∧
      (handleFilesStep env st (some claims) req logAt versionAt).fsOps =
        [FsOp.writeFile (cleanPathOf env req.path) data] ∧
      log.action = "FILE_WRITE" ∧
      log.target = cleanPathOf env req.path ∧
      version.path = cleanPathOf env req.path ∧
      version.size = (data.length : Int) ∧
      version.content = data ∧
      version.logID = log.id := by
  have hact : (handleFilesStep env st (some claims) req logAt versionAt) =
      handleWrite env st (some claims) req (cleanPathOf env req.path) logAt versionAt := by
    simp [handleFilesStep, haction]
  have hdec : (if req.isBase64 then env.base64Decode req.content
      else some (stringBytes req.content)) = some data := by
    rcases hdata with ⟨hb, hd⟩ | ⟨hb, hd⟩
    · simp [hb, hd]
    · simp [hb, hd]
  rw [hact]
  simp only [handleWrite, hdec, hok]
  simp [Store.createLog, Store.createVersion, hw]

/-- Witness of claim C3: user 1 writing "hello" to /tmp/a.txt in the empty store gets one
FILE_WRITE log and one version of size 5 holding the five bytes of "hello". -/
theorem write_creates_log_and_version_witness :
    (handleFilesStep sampleFs emptyStore (some sampleClaims) helloReq 10 11).store.logs =
      [{ id := 1, userID := 1, action := "FILE_WRITE", target := "/tmp/a.txt",
         details := "Wrote 5 bytes", terminalSessionID := none, createdAt := 10 }] ∧
    (handleFilesStep sampleFs emptyStore (some sampleClaims) helloReq 10 11).store.versions =
      [{ id := 1, logID := 1, path := "/tmp/a.txt", content := [104, 101, 108, 108, 111],
         size := 5, createdAt := 11 }] ∧
    ∃ log version,
      (handleFilesStep sampleFs emptyStore (some sampleClaims) helloReq 10 11).store.logs =
        emptyStore.logs ++ [log] ∧
      (handleFilesStep sampleFs emptyStore (some sampleClaims) helloReq 10 11).store.versions =
        emptyStore.versions ++ [version] ∧
      (handleFilesStep sampleFs emptyStore (some sampleClaims) helloReq 10 11).store.sessions =
        emptyStore.sessions ∧
      (handleFilesStep sampleFs emptyStore (some sampleClaims) helloReq 10 11).fsOps =
        [FsOp.writeFile (cleanPathOf sampleFs helloReq.path) [104, 101, 108, 108, 111]] ∧
      log.action = "FILE_WRITE" ∧
      log.target = cleanPathOf sampleFs helloReq.path ∧
      version.path = cleanPathOf sampleFs helloReq.path ∧
      version.size = (([104, 101, 108, 108, 111] : List Nat).length : Int) ∧
      version.content = [104, 101, 108, 108, 111] ∧
      version.logID = log.id :=
  ⟨by decide, by decide,
    write_creates_log_and_version sampleFs emptyStore sampleClaims helloReq 10 11
      [104, 101, 108, 108, 111] rfl rfl (Or.inr ⟨by decide, by decide⟩) rfl⟩

/-! ## Process ranking -/

/-- The conditional swap at the positions of `x` and `y` of a list split around them. -/
theorem swapIfLess_split {F : Type} [LinearOrder F] (pre mid post : List (ProcInfo F))
    (x y : ProcInfo F) :
    swapIfLess (pre ++ x :: mid ++ y :: post) pre.length (pre.length + 1 + mid.length) =
      if x.cpu < y.cpu then pre ++ y :: mid ++ x :: post else pre ++ x :: mid ++ y :: post := by
  have hi : (pre ++ x :: mid ++ y :: post)[pre.length]? = some x := by
    rw [List.append_assoc, List.getElem?_append_right (le_refl _), Nat.sub_self]
    simp
  have hj : (pre ++ x :: mid ++ y :: post)[pre.length + 1 + mid.length]? = some y := by
    rw [List.append_assoc, List.getElem?_append_right (by omega)]
    have : pre.length + 1 + mid.length - pre.length = mid.length + 1 := by omega
    rw [this, List.cons_append, List.getElem?_cons_succ,
      List.getElem?_append_right (le_refl _), Nat.sub_self]
    simp
  unfold swapIfLess
  rw [hi, hj]
  simp only
  split
  · rw [List.append_assoc, List.set_append_right _ _ (by omega)]
    simp only [Nat.sub_self, List.cons_append, List.set_cons_zero]
    rw [List.set_append_right _ _ (by omega)]
    have : pre.length + 1 + mid.length - pre.length = mid.length + 1 := by omega
    rw [this]
    simp only [List.set_cons_succ]
    rw [List.set_append_right _ _ (by omega)]
    simp
  · rfl

/-- The inner pass keeps the length of the rest. -/
theorem passMax_length {F : Type} [LinearOrder F] (x : ProcInfo F) (l : List (ProcInfo F)) :
    (passMax x l).2.length = l.length := by
  induction l generalizing x with
  | nil => rfl
  | cons y ys ih =>
    unfold passMax
    split <;> simp [ih]

/-- The inner pass rearranges the process at index `i` and the rest. -/
theorem passMax_perm {F : Type} [LinearOrder F] (x : ProcInfo F) (l : List (ProcInfo F)) :
    ((passMax x l).1 :: (passMax x l).2).Perm (x :: l) := by
  induction l generalizing x with
  | nil => exact List.Perm.refl _
  | cons y ys ih =>
    unfold passMax
    split
    · exact ((List.Perm.swap _ _ _).trans ((ih y).cons x))
    · exact ((List.Perm.swap _ _ _).trans ((ih x).cons y)).trans (List.Perm.swap _ _ _)

/-- The inner pass leaves at index `i` a process whose CPU percent is at least that of
the starting one and of every process of the rest. -/
theorem passMax_ge {F : Type} [LinearOrder F] (x : ProcInfo F) (l : List (ProcInfo F)) :
    x.cpu ≤ (passMax x l).1.cpu ∧ ∀ b ∈ (passMax x l).2, b.cpu ≤ (passMax x l).1.cpu := by
  induction l generalizing x with
  | nil => simp [passMax]
  | cons y ys ih =>
    unfold passMax
    split
    · rename_i hlt
      refine ⟨le_trans (le_of_lt hlt) (ih y).1, ?_⟩
      intro b hb
      rcases List.mem_cons.mp hb with rfl | hb
      · exact le_trans (le_of_lt hlt) (ih y).1
      · exact (ih y).2 b hb
    · rename_i hnlt
      refine ⟨(ih x).1, ?_⟩
      intro b hb
      rcases List.mem_cons.mp hb with rfl | hb
      · exact le_trans (not_lt.mp hnlt) (ih x).1
      · exact (ih x).2 b hb

/-- The inner loop from position `j`, on a list split at `i` and `j`, in terms of `passMax`. -/
theorem innerLoop_split {F : Type} [LinearOrder F] (pre mid : List (ProcInfo F))
    (x : ProcInfo F) (todo : List (ProcInfo F)) :
    (List.range' (pre.length + 1 + mid.length) todo.length).foldl
        (fun acc j => swapIfLess acc pre.length j) (pre ++ x :: mid ++ todo) =
      pre ++ (passMax x todo).1 :: mid ++ (passMax x todo).2 := by
  induction todo generalizing x mid with
  | nil => simp [passMax]
  | cons y ys ih =>
    simp only [List.length_cons, List.range'_succ, List.foldl_cons]
    rw [swapIfLess_split]
    unfold passMax
    split
    · have h := ih (mid ++ [x]) y
      simp only [List.length_append, List.length_singleton, ← Nat.add_assoc, List.append_assoc,
        List.cons_append, List.singleton_append, List.nil_append] at h ⊢
      exact h
    · have h := ih (mid ++ [y]) x
      simp only [List.length_append, List.length_singleton, ← Nat.add_assoc, List.append_assoc,
        List.cons_append, List.singleton_append, List.nil_append] at h ⊢
      exact h

/-- The whole inner loop for index `i` in terms of `passMax`. -/
theorem sortInner_split {F : Type} [LinearOrder F] (pre : List (ProcInfo F)) (x : ProcInfo F)
    (rest : List (ProcInfo F)) :
    sortInner (pre ++ x :: rest) pre.length =
      pre ++ (passMax x rest).1 :: (passMax x rest).2 := by
  have h := innerLoop_split pre [] x rest
  simp only [List.length_nil, Nat.add_zero, List.append_nil] at h
  unfold sortInner
  have hlen : (pre ++ x :: rest).length - (pre.length + 1) = rest.length := by
    simp only [List.length_append, List.length_cons]
    omega
  rw [hlen]
  simpa using h

/-- The outer loop from index `i`: the first `i` entries stay, the others are rearranged into
non-increasing order of CPU percent. -/
theorem outerLoop_sorted {F : Type} [LinearOrder F] (n : Nat) (pre rest : List (ProcInfo F))
    (hn : rest.length = n) :
    ∃ s, (List.range' pre.length n).foldl sortInner (pre ++ rest) = pre ++ s ∧
      s.Perm rest ∧ s.Sorted (fun a b => a.cpu ≥ b.cpu) := by
  induction n generalizing pre rest with
  | zero =>
    have : rest = [] := List.length_eq_zero.mp hn
    subst this
    exact ⟨[], by simp, List.Perm.refl _, List.sorted_nil⟩
  | succ n ih =>
    match rest, hn with
    | x :: xs, hn =>
      simp only [List.range'_succ, List.foldl_cons]
      rw [sortInner_split]
      have hlen : (passMax x xs).2.length = n := by
        rw [passMax_length]
        simpa using hn
      obtain ⟨s, hs, hperm, hsorted⟩ := ih (pre ++ [(passMax x xs).1]) (passMax x xs).2 hlen
      refine ⟨(passMax x xs).1 :: s, ?_, ?_, ?_⟩
      · simp only [List.length_append, List.length_singleton, List.append_assoc,
          List.singleton_append] at hs
        exact hs
      · exact (hperm.cons _).trans (passMax_perm x xs)
      · refine List.sorted_cons.mpr ⟨?_, hsorted⟩
        intro b hb
        exact (passMax_ge x xs).2 b (hperm.subset hb)

/-- The two loops rearrange the list into non-increasing order of CPU percent. -/
theorem sortByCPU_perm_sorted {F : Type} [LinearOrder F] (l : List (ProcInfo F)) :
    (sortByCPU l).Perm l ∧ (sortByCPU l).Sorted (fun a b => a.cpu ≥ b.cpu) := by
  obtain ⟨s, hs, hperm, hsorted⟩ := outerLoop_sorted l.length [] l rfl
  have : sortByCPU l = s := by
    unfold sortByCPU
    rw [List.range_eq_range']
    simpa using hs
  rw [this]
  exact ⟨hperm, hsorted⟩

/-- The list sent is the first ten entries of the sorted list, whatever its length. -/
theorem topProcesses_eq_take {F : Type} [LinearOrder F] (l : List (ProcInfo F)) :
    topProcesses l = (sortByCPU l).take 10 := by
  unfold topProcesses
  simp only
  split
  · rfl
  · rename_i h
    exact (List.take_of_length_le (by omega)).symm

/-- Two lists with the same image under a function injective across them are equal. -/
theorem eq_of_map_eq_of_injOn {α β : Type} (f : α → β) (l₁ l₂ : List α)
    (hinj : ∀ a ∈ l₁, ∀ b ∈ l₂, f a = f b → a = b) (h : l₁.map f = l₂.map f) :
    l₁ = l₂ := by
  induction l₁ generalizing l₂ with
  | nil =>
    cases l₂ with
    | nil => rfl
    | cons b bs => simp at h
  | cons a as ih =>
    cases l₂ with
    | nil => simp at h
    | cons b bs =>
      simp only [List.map_cons, List.cons.injEq] at h
      have hab : a = b := hinj a (List.mem_cons_self _ _) b (List.mem_cons_self _ _) h.1
      have htl : as = bs :=
        ih bs (fun x hx y hy =>
          hinj x (List.mem_cons_of_mem _ hx) y (List.mem_cons_of_mem _ hy)) h.2
      rw [hab, htl]

/-- The CPU percents of the sorted list are those of the stable sort, in the same order. -/
theorem sortByCPU_map_cpu {F : Type} [LinearOrder F] (l : List (ProcInfo F)) :
    (sortByCPU l).map (fun p => p.cpu) =
      (l.insertionSort (fun a b => a.cpu ≥ b.cpu)).map (fun p => p.cpu) := by
  have h1 := sortByCPU_perm_sorted l
  have h2 : (l.insertionSort (fun a b => a.cpu ≥ b.cpu)).Sorted (fun a b => a.cpu ≥ b.cpu) := by
    haveI : IsTotal (ProcInfo F) (fun a b => a.cpu ≥ b.cpu) :=
      ⟨fun a b => le_total b.cpu a.cpu⟩
    haveI : IsTrans (ProcInfo F) (fun a b => a.cpu ≥ b.cpu) :=
      ⟨fun a b c hab hbc => le_trans hbc hab⟩
    exact List.sorted_insertionSort _ l
  have h3 := List.perm_insertionSort (fun a b : ProcInfo F => a.cpu ≥ b.cpu) l
  refine List.eq_of_perm_of_sorted (r := fun x y : F => x ≥ y)
    ((h1.1.trans h3.symm).map _) ?_ ?_
  · exact List.pairwise_map.mpr h1.2
  · exact List.pairwise_map.mpr h2

/-- Counterexample to claim C5 as stated: of the processes 1, 2, 3 with CPU percent 1, 1, 2
the snapshot lists 3, 2, 1, while the stable sort by CPU percent descending is 3, 1, 2: the
two processes with equal CPU percent are sent in the reverse of their enumeration order. -/
theorem topProcesses_not_stable :
    (topProcesses tiedProcs).map (fun p => p.pid) = [3, 2, 1] ∧
    (stableTop tiedProcs).map (fun p => p.pid) = [3, 1, 2] ∧
    topProcesses tiedProcs ≠ stableTop tiedProcs := by
  decide

/-- Claim C5, amended: for every list of sampled processes, the process list sent is the
first ten entries of a rearrangement of the sampled list in non-increasing order of CPU
percent; its sequence of CPU percents is that of the stable sort by CPU percent descending
truncated to ten entries, and it is that stable sort truncated to ten entries whenever the
CPU percents of the sampled processes are pairwise distinct. -/
theorem topProcesses_sorted_prefix {F : Type} [LinearOrder F] (l : List (ProcInfo F)) :
    (∃ sorted : List (ProcInfo F), sorted.Perm l ∧
      sorted.Sorted (fun a b => a.cpu ≥ b.cpu) ∧ topProcesses l = sorted.take 10) ∧
    (topProcesses l).map (fun p => p.cpu) = (stableTop l).map (fun p => p.cpu) ∧
    ((l.map (fun p => p.cpu)).Nodup → topProcesses l = stableTop l) := by
  have hs := sortByCPU_perm_sorted l
  have hmap := sortByCPU_map_cpu l
  refine ⟨⟨sortByCPU l, hs.1, hs.2, topProcesses_eq_take l⟩, ?_, ?_⟩
  · rw [topProcesses_eq_take, stableTop, List.map_take, List.map_take, hmap]
  · intro hnodup
    have hinj := List.inj_on_of_nodup_map hnodup
    have heq : sortByCPU l = l.insertionSort (fun a b => a.cpu ≥ b.cpu) := by
      refine eq_of_map_eq_of_injOn (fun p => p.cpu) _ _ ?_ hmap
      intro a ha b hb hab
      exact hinj (hs.1.subset ha)
        ((List.perm_insertionSort (fun a b : ProcInfo F => a.cpu ≥ b.cpu) l).subset hb) hab
    rw [topProcesses_eq_take, stableTop, heq]

/-- Claim C6: for every list of n sampled processes with linearly ordered CPU percents, the
process list sent has exactly min(n, 10) entries, is in non-increasing order of CPU percent,
and together with some list of left-out processes is a rearrangement of the sampled list
(so its entries are drawn from it without duplication), every left-out process having CPU
percent at most that of every process sent; 15 processes yield exactly 10 entries. -/
theorem topProcesses_top_ten {F : Type} [LinearOrder F] (l : List (ProcInfo F)) :
    (topProcesses l).length = min l.length 10 ∧
    (topProcesses l).Sorted (fun a b => a.cpu ≥ b.cpu) ∧
    (∃ rest : List (ProcInfo F), (topProcesses l ++ rest).Perm l ∧
      ∀ a ∈ topProcesses l, ∀ b ∈ rest, b.cpu ≤ a.cpu) ∧
    (l.length = 15 → (topProcesses l).length = 10) := by
  have hs := sortByCPU_perm_sorted l
  have hlen : (topProcesses l).length = min l.length 10 := by
    rw [topProcesses_eq_take, List.length_take, hs.1.length_eq, Nat.min_comm]
  refine ⟨hlen, ?_, ⟨(sortByCPU l).drop 10, ?_, ?_⟩, ?_⟩
  · rw [topProcesses_eq_take]
    exact hs.2.sublist (List.take_sublist _ _)
  · rw [topProcesses_eq_take, List.take_append_drop]
    exact hs.1
  · intro a ha b hb
    rw [topProcesses_eq_take] at ha
    exact hs.2.rel_of_mem_take_of_mem_drop ha hb
  · intro h15
    rw [hlen, h15]
    rfl

/-! ## Resize messages -/

/-- Counterexample to claim C11 as stated: the resize message of the examples, which decodes
as a resize control message, sent in a binary frame is written to the pseudo-terminal input
and sets no window size; sent in a text frame after a leading blank, where it still decodes,
it is written to the pseudo-terminal input as well, sets no window size and enters the
pending command buffer. -/
theorem binary_resize_not_applied :
    resizeTermEnv.unmarshalResize resizeMsgBytes =
      some { type := "resize", cols := 80, rows := 24 } ∧
    (handleFrame resizeTermEnv 1 TermState.init ⟨MsgType.binary, resizeMsgBytes⟩).winsizes =
      [] ∧
    (handleFrame resizeTermEnv 1 TermState.init ⟨MsgType.binary, resizeMsgBytes⟩).ptyInput =
      [resizeMsgBytes] ∧
    resizeTermEnv.unmarshalResize (32 :: resizeMsgBytes) =
      some { type := "resize", cols := 80, rows := 24 } ∧
    (handleFrame resizeTermEnv 1 TermState.init ⟨MsgType.text, 32 :: resizeMsgBytes⟩).winsizes =
      [] ∧
    (handleFrame resizeTermEnv 1 TermState.init ⟨MsgType.text, 32 :: resizeMsgBytes⟩).ptyInput =
      [32 :: resizeMsgBytes] ∧
    (handleFrame resizeTermEnv 1 TermState.init
      ⟨MsgType.text, 32 :: resizeMsgBytes⟩).recon.commandBuf = 32 :: resizeMsgBytes := by
  decide

/-- Claim C11, amended: for every inbound text frame whose payload starts with an opening
brace (byte 123) and decodes as a JSON object with type "resize", the window size of the
pseudo-terminal is set to the rows and columns of the message (as 16-bit values), nothing is
written to the pseudo-terminal input, and the command list and the pending command buffer
are unchanged; the input loop never touches the transcript. -/
theorem handleFrame_resize (env : TermEnv) (sessionUserID : Nat) (st : TermState)
    (msg : List Nat) (r : ResizeMsg) (hfirst : msg.head? = some 123)
    (hdecode : env.unmarshalResize msg = some r) (htype : r.type = "resize") :
    (handleFrame env sessionUserID st ⟨MsgType.text, msg⟩).winsizes =
      st.winsizes ++ [((r.rows % 65536).toNat, (r.cols % 65536).toNat)] ∧
    (handleFrame env sessionUserID st ⟨MsgType.text, msg⟩).ptyInput = st.ptyInput ∧
    (handleFrame env sessionUserID st ⟨MsgType.text, msg⟩).recon = st.recon := by
  have hres : resizeOf env msg = some r := by
    cases msg with
    | nil => simp at hfirst
    | cons b bs =>
      have hb : b = 123 := by simpa using hfirst
      subst hb
      simp [resizeOf, hdecode, htype]
  simp [handleFrame, hres]

/-- Witness of claim C11: the resize message of the examples in a text frame sets the window
size to 24 rows and 80 columns and writes nothing to the pseudo-terminal. -/
theorem handleFrame_resize_witness :
    (handleFrame resizeTermEnv 1 TermState.init ⟨MsgType.text, resizeMsgBytes⟩).winsizes =
      TermState.init.winsizes ++ [((((24 : Int)) % 65536).toNat, (((80 : Int)) % 65536).toNat)] ∧
    (handleFrame resizeTermEnv 1 TermState.init ⟨MsgType.text, resizeMsgBytes⟩).ptyInput =
      TermState.init.ptyInput ∧
    (handleFrame resizeTermEnv 1 TermState.init ⟨MsgType.text, resizeMsgBytes⟩).recon =
      TermState.init.recon :=
  handleFrame_resize resizeTermEnv 1 TermState.init resizeMsgBytes
    { type := "resize", cols := 80, rows := 24 } (by decide) (by decide) rfl

/-! ## Invariant of the reconstruction -/

/-- One byte keeps the session-tracking variables well formed. -/
theorem reconByte_ok (s : Recon) (b : Nat) (h : ReconOK s) : ReconOK (reconByte s b) := by
  obtain ⟨hcmds, hbuf⟩ := h
  unfold reconByte
  split
  · split
    · rename_i hpos
      refine ⟨?_, by simp⟩
      intro c hc
      rcases List.mem_append.mp hc with hc | hc
      · exact hcmds c hc
      · have hceq : c = s.commandBuf := by simpa using hc
        subst hceq
        exact ⟨List.ne_nil_of_length_pos hpos, hbuf⟩
    · exact ⟨hcmds, hbuf⟩
  · split
    · split
      · exact ⟨hcmds, fun x hx => hbuf x (List.mem_of_mem_take hx)⟩
      · exact ⟨hcmds, hbuf⟩
    · split
      · rename_i hp
        refine ⟨hcmds, ?_⟩
        intro x hx
        rcases List.mem_append.mp hx with hx | hx
        · exact hbuf x hx
        · have hxeq : x = b := by simpa using hx
          subst hxeq
          exact hp
      · exact ⟨hcmds, hbuf⟩

/-- The byte loop keeps the session-tracking variables well formed. -/
theorem reconFeed_ok (msg : List Nat) (s : Recon) (h : ReconOK s) : ReconOK (reconFeed s msg) := by
  induction msg generalizing s with
  | nil => exact h
  | cons b bs ih => exact ih (reconByte s b) (reconByte_ok s b h)

/-- One frame keeps the session-tracking variables well formed. -/
theorem handleFrame_ok (env : TermEnv) (sessionUserID : Nat) (st : TermState) (f : Frame)
    (h : ReconOK st.recon) : ReconOK (handleFrame env sessionUserID st f).recon := by
  unfold handleFrame
  split
  · split
    · exact h
    · simp only
      split
      · exact reconFeed_ok _ _ h
      · exact h
  · exact h
  · exact h

/-- Any number of frames keeps the session-tracking variables well formed. -/
theorem foldl_handleFrame_ok (env : TermEnv) (sessionUserID : Nat) (frames : List Frame)
    (st : TermState) (h : ReconOK st.recon) :
    ReconOK (frames.foldl (handleFrame env sessionUserID) st).recon := by
  induction frames generalizing st with
  | nil => exact h
  | cons f fs ih => exact ih _ (handleFrame_ok env sessionUserID st f h)

/-- The session-tracking variables are well formed at the start of the input loop. -/
theorem init_ok : ReconOK TermState.init.recon := by
  simp [ReconOK, TermState.init]

/-- Claim C19: for every sequence of input frames, after every number of frames, and after
every number of bytes of a further message fed to the reconstruction loop, every captured
command is non-empty and made of bytes 32..126 only, and the pending command buffer is made
of bytes 32..126 only. -/
theorem recon_invariant (env : TermEnv) (sessionUserID : Nat) (frames : List Frame)
    (msg : List Nat) (n k : Nat) :
    ReconOK (runFrames env sessionUserID (frames.take n)).recon ∧
    ReconOK (reconFeed (runFrames env sessionUserID (frames.take n)).recon (msg.take k)) := by
  have h := foldl_handleFrame_ok env sessionUserID (frames.take n) TermState.init init_ok
  exact ⟨h, reconFeed_ok _ _ h⟩

/-! ## Splitting of the input into frames -/

/-- Claim C20: for every reconstruction state and all byte sequences a and b, feeding a and
then b to the reconstruction loop yields the same command list and pending buffer as feeding
the concatenation of a and b; so do two text frames a and b and the one text frame of their
concatenation, for every user id, when none of the three is a resize control message. -/
theorem reconFeed_append (s : Recon) (a b : List Nat) :
    reconFeed (reconFeed s a) b = reconFeed s (a ++ b) ∧
    ∀ (env : TermEnv) (sessionUserID : Nat) (st : TermState), st.recon = s →
      resizeOf env a = none → resizeOf env b = none → resizeOf env (a ++ b) = none →
      (handleFrame env sessionUserID (handleFrame env sessionUserID st ⟨MsgType.text, a⟩)
          ⟨MsgType.text, b⟩).recon =
        (handleFrame env sessionUserID st ⟨MsgType.text, a ++ b⟩).recon := by
  have happ : reconFeed (reconFeed s a) b = reconFeed s (a ++ b) := by
    simp [reconFeed, List.foldl_append]
  refine ⟨happ, ?_⟩
  intro env uid st hst ha hb hab
  by_cases hpos : 0 < uid
  · simp [handleFrame, ha, hb, hab, hpos, hst, happ]
  · simp [handleFrame, ha, hb, hab, hpos, hst]

/-! ## Process cache -/

/-- Sampling one process id changes the cache at most at that id, and never changes or
removes an entry that is there. -/
theorem sampleStep_cache {H F : Type} (env : ProcEnv H F)
    (acc : (Int → Option H) × List (ProcInfo F)) (p : Int) :
    (∀ q, q ≠ p → (sampleStep env acc p).1 q = acc.1 q) ∧
    (∀ q h, acc.1 q = some h → (sampleStep env acc p).1 q = some h) := by
  unfold sampleStep
  cases hp : acc.1 p with
  | some proc =>
    simp only
    cases env.cpuPercent proc <;> simp
  | none =>
    cases hn : env.newProcess p with
    | none => simp
    | some newProc =>
      simp only
      cases env.cpuPercent newProc with
      | none =>
        refine ⟨fun q hq => by simp [hq], fun q h hqh => ?_⟩
        have hqp : q ≠ p := by
          intro heq
          rw [heq, hp] at hqh
          cases hqh
        simp [hqp, hqh]
      | some cpuP =>
        refine ⟨fun q hq => by simp [hq], fun q h hqh => ?_⟩
        have hqp : q ≠ p := by
          intro heq
          rw [heq, hp] at hqh
          cases hqh
        simp [hqp, hqh]

/-- The sampling loop changes the cache only at the process ids it visits, and never changes
or removes an entry that is there. -/
theorem foldl_sampleStep_cache {H F : Type} (env : ProcEnv H F) (ps : List Int)
    (acc : (Int → Option H) × List (ProcInfo F)) :
    (∀ q, q ∉ ps → (ps.foldl (sampleStep env) acc).1 q = acc.1 q) ∧
    (∀ q h, acc.1 q = some h → (ps.foldl (sampleStep env) acc).1 q = some h) := by
  induction ps generalizing acc with
  | nil => simp
  | cons p ps ih =>
    have hstep := sampleStep_cache env acc p
    have hrest := ih (sampleStep env acc p)
    refine ⟨fun q hq => ?_, fun q h hqh => ?_⟩
    · have hqp : q ≠ p := fun heq => hq (heq ▸ List.mem_cons_self _ _)
      have hqps : q ∉ ps := fun hmem => hq (List.mem_cons_of_mem _ hmem)
      rw [List.foldl_cons, hrest.1 q hqps, hstep.1 q hqp]
    · rw [List.foldl_cons]
      exact hrest.2 q h (hstep.2 q h hqh)

/-- Claim C16: after every metrics tick the process cache holds no entry for a process id
that is absent from the tick's enumeration, and every process id that was cached before the
tick and is in the enumeration keeps the handle it had. -/
theorem cache_after_tick {H F : Type} [LinearOrder F] (env : ProcEnv H F) (s : MonitorState H)
    (now : Nat) (netStat : List IOCountersStat) (pids : List Int) :
    (∀ pid, pid ∉ pids →
      (handleMonitorTick env s now netStat pids).2.procCache pid = none) ∧
    (∀ pid h, pid ∈ pids → s.procCache pid = some h →
      (handleMonitorTick env s now netStat pids).2.procCache pid = some h) := by
  have hloop := foldl_sampleStep_cache env pids
    ((refreshCache s.procCache pids, []) : (Int → Option H) × List (ProcInfo F))
  refine ⟨fun pid hpid => ?_, fun pid h hpid hcached => ?_⟩
  · simp only [handleMonitorTick, sampleProcesses]
    rw [hloop.1 pid hpid]
    simp [refreshCache, hpid]
  · simp only [handleMonitorTick, sampleProcesses]
    apply hloop.2 pid h
    simp [refreshCache, hpid, hcached]

/-! ## Network rates after the first tick -/

/-- The rates of a tick after the first, with positive elapsed time, when neither counter
has decreased: the difference of the counters over the elapsed seconds. -/
theorem netRates_of_le (s : RateState) (now rx tx : Nat) (rest : List IOCountersStat)
    (hlast : s.lastTime ≠ 0) (htime : s.lastTime < now)
    (hrx : s.lastRx ≤ rx) (htx : s.lastTx ≤ tx) (hrx64 : rx < 2 ^ 64) (htx64 : tx < 2 ^ 64) :
    (netRates s now ({ bytesRecv := rx, bytesSent := tx } :: rest)).1 =
      (((rx : ℚ) - (s.lastRx : ℚ)) / (((now : ℚ) - (s.lastTime : ℚ)) / 1000000000),
       ((tx : ℚ) - (s.lastTx : ℚ)) / (((now : ℚ) - (s.lastTime : ℚ)) / 1000000000)) := by
  have hdur : ((now : ℚ) - (s.lastTime : ℚ)) / 1000000000 > 0 := by
    have : (s.lastTime : ℚ) < (now : ℚ) := by exact_mod_cast htime
    apply div_pos
    · linarith
    · norm_num
  have h1 : (rx + 2 ^ 64 - s.lastRx % 2 ^ 64) % 2 ^ 64 = rx - s.lastRx := by
    norm_num at hrx64 ⊢
    omega
  have h2 : (tx + 2 ^ 64 - s.lastTx % 2 ^ 64) % 2 ^ 64 = tx - s.lastTx := by
    norm_num at htx64 ⊢
    omega
  simp only [netRates, hlast, ne_eq, not_false_eq_true, if_true, hdur, h1, h2]
  rw [Nat.cast_sub hrx, Nat.cast_sub htx]

/-- Claim C17, the code at the failing input: a tick two seconds after a tick that read 1000
received and 500 sent bytes, reading 400 received and 900 sent bytes, reports
(2^64 - 600) / 2 = 9223372036854775508 for `rx_sec`, not (400 - 1000) / 2 = -300, and
(900 - 500) / 2 = 200 for `tx_sec`. -/
theorem netRates_counter_decrease :
    (netRates { lastRx := 1000, lastTx := 500, lastTime := 1000000000 } 3000000000
      [{ bytesRecv := 400, bytesSent := 900 }]).1 = (9223372036854775508, 200) ∧
    ((400 : ℚ) - 1000) / (((3000000000 : ℚ) - 1000000000) / 1000000000) = -300 := by
  constructor
  · norm_num [netRates]
  · norm_num

/-! ## File operations: responses, store and paths -/

/-- The failure of a `list` request, read off the environment. -/
theorem failureOf_list (env : FsEnv) (req : FileReq) (h : req.action = "list") :
    failureOf env req =
      (match env.readDir (cleanPathOf env req.path) with
        | .error msg => some msg
        | .ok _ => none) := by
  unfold failureOf
  simp only []
  rw [if_pos h]

/-- The response to a `list` request has the shape `ResponseFor` for its failure. -/
theorem responses_list (env : FsEnv) (st : Store) (user : Option Claims) (req : FileReq)
    (logAt versionAt : Nat) (h : req.action = "list") :
    ∃ r, (handleFilesStep env st user req logAt versionAt).responses = [r] ∧
      ResponseFor "list" (failureOf env req) r := by
  rw [failureOf_list env req h]
  unfold handleFilesStep
  simp only []
  rw [if_pos h]
  cases env.readDir (cleanPathOf env req.path) with
  | error msg => exact ⟨_, rfl, by simp [ResponseFor, List.lookup]⟩
  | ok entries => exact ⟨_, rfl, by simp [ResponseFor, List.lookup]⟩

/-- The failure of a `cat` request, read off the environment. -/
theorem failureOf_cat (env : FsEnv) (req : FileReq) (h : req.action = "cat") :
    failureOf env req =
      (match env.readFile (cleanPathOf env req.path) with
        | .error msg => some msg
        | .ok _ => none) := by
  unfold failureOf
  simp only []
  rw [if_neg (show ¬ req.action = "list" by rw [h]; decide), if_pos h]

/-- The response to a `cat` request has the shape `ResponseFor` for its failure. -/
theorem responses_cat (env : FsEnv) (st : Store) (user : Option Claims) (req : FileReq)
    (logAt versionAt : Nat) (h : req.action = "cat") :
    ∃ r, (handleFilesStep env st user req logAt versionAt).responses = [r] ∧
      ResponseFor "cat" (failureOf env req) r := by
  rw [failureOf_cat env req h]
  unfold handleFilesStep
  simp only []
  rw [if_neg (show ¬ req.action = "list" by rw [h]; decide), if_pos h]
  cases env.readFile (cleanPathOf env req.path) with
  | error msg => exact ⟨_, rfl, by simp [ResponseFor, List.lookup]⟩
  | ok data => exact ⟨_, rfl, by simp [ResponseFor, List.lookup]⟩

/-- The failure of a `read` request, read off the environment. -/
theorem failureOf_read (env : FsEnv) (req : FileReq) (h : req.action = "read") :
    failureOf env req =
      (match env.readFile (cleanPathOf env req.path) with
        | .error msg => some msg
        | .ok _ => none) := by
  unfold failureOf
  simp only []
  rw [if_neg (show ¬ req.action = "list" by rw [h]; decide),
    if_neg (show ¬ req.action = "cat" by rw [h]; decide), if_pos h]

/-- The response to a `read` request has the shape `ResponseFor` for its failure. -/
theorem responses_read (env : FsEnv) (st : Store) (user : Option Claims) (req : FileReq)
    (logAt versionAt : Nat) (h : req.action = "read") :
    ∃ r, (handleFilesStep env st user req logAt versionAt).responses = [r] ∧
      ResponseFor "read" (failureOf env req) r := by
  rw [failureOf_read env req h]
  unfold handleFilesStep
  simp only []
  rw [if_neg (show ¬ req.action = "list" by rw [h]; decide),
    if_neg (show ¬ req.action = "cat" by rw [h]; decide), if_pos h]
  cases env.readFile (cleanPathOf env req.path) with
  | error msg => exact ⟨_, rfl, by simp [ResponseFor, List.lookup]⟩
  | ok data => exact ⟨_, rfl, by simp [ResponseFor, List.lookup]⟩

/-- The failure of a `write` request, read off the environment. -/
theorem failureOf_write (env : FsEnv) (req : FileReq) (h : req.action = "write") :
    failureOf env req =
      (match (if req.isBase64 then env.base64Decode req.content
          else some (stringBytes req.content)) with
        | none => some "Invalid base64"
        | some data => env.writeFile (cleanPathOf env req.path) data) := by
  unfold failureOf
  simp only []
  rw [if_neg (show ¬ req.action = "list" by rw [h]; decide),
    if_neg (show ¬ req.action = "cat" by rw [h]; decide),
    if_neg (show ¬ req.action = "read" by rw [h]; decide), if_pos h]

/-- The response to a `write` request has the shape `ResponseFor` for its failure. -/
theorem responses_write (env : FsEnv) (st : Store) (user : Option Claims) (req : FileReq)
    (logAt versionAt : Nat) (h : req.action = "write") :
    ∃ r, (handleFilesStep env st user req logAt versionAt).responses = [r] ∧
      ResponseFor "write" (failureOf env req) r := by
  rw [failureOf_write env req h]
  unfold handleFilesStep
  simp only []
  rw [if_neg (show ¬ req.action = "list" by rw [h]; decide),
    if_neg (show ¬ req.action = "cat" by rw [h]; decide),
    if_neg (show ¬ req.action = "read" by rw [h]; decide), if_pos h]
  unfold handleWrite
  simp only []
  generalize (if req.isBase64 = true then env.base64Decode req.content
    else some (stringBytes req.content)) = decoded
  cases decoded with
  | none => exact ⟨_, rfl, by simp [ResponseFor, List.lookup]⟩
  | some data =>
    dsimp only
    cases env.writeFile (cleanPathOf env req.path) data with
    | some err => exact ⟨_, rfl, by simp [ResponseFor, List.lookup]⟩
    | none => exact ⟨_, rfl, by simp [ResponseFor, List.lookup]⟩

/-- The failure of a `rm` request, read off the environment. -/
theorem failureOf_rm (env : FsEnv) (req : FileReq) (h : req.action = "rm") :
    failureOf env req =
      env.removeAll (cleanPathOf env req.path) := by
  unfold failureOf
  simp only []
  rw [if_neg (show ¬ req.action = "list" by rw [h]; decide),
    if_neg (show ¬ req.action = "cat" by rw [h]; decide),
    if_neg (show ¬ req.action = "read" by rw [h]; decide),
    if_neg (show ¬ req.action = "write" by rw [h]; decide), if_pos h]

/-- The response to a `rm` request has the shape `ResponseFor` for its failure. -/
theorem responses_rm (env : FsEnv) (st : Store) (user : Option Claims) (req : FileReq)
    (logAt versionAt : Nat) (h : req.action = "rm") :
    ∃ r, (handleFilesStep env st user req logAt versionAt).responses = [r] ∧
      ResponseFor "rm" (failureOf env req) r := by
  rw [failureOf_rm env req h]
  unfold handleFilesStep
  simp only []
  rw [if_neg (show ¬ req.action = "list" by rw [h]; decide),
    if_neg (show ¬ req.action = "cat" by rw [h]; decide),
    if_neg (show ¬ req.action = "read" by rw [h]; decide),
    if_neg (show ¬ req.action = "write" by rw [h]; decide), if_pos h]
  unfold plainAnswer
  cases env.removeAll (cleanPathOf env req.path) with
  | some msg => exact ⟨_, rfl, by simp [ResponseFor, List.lookup]⟩
  | none => exact ⟨_, rfl, by simp [ResponseFor, List.lookup]⟩

/-- The failure of a `mkdir` request, read off the environment. -/
theorem failureOf_mkdir (env : FsEnv) (req : FileReq) (h : req.action = "mkdir") :
    failureOf env req =
      env.mkdirAll (cleanPathOf env req.path) := by
  unfold failureOf
  simp only []
  rw [if_neg (show ¬ req.action = "list" by rw [h]; decide),
    if_neg (show ¬ req.action = "cat" by rw [h]; decide),
    if_neg (show ¬ req.action = "read" by rw [h]; decide),
    if_neg (show ¬ req.action = "write" by rw [h]; decide),
    if_neg (show ¬ req.action = "rm" by rw [h]; decide), if_pos h]

/-- The response to a `mkdir` request has the shape `ResponseFor` for its failure. -/
theorem responses_mkdir (env : FsEnv) (st : Store) (user : Option Claims) (req : FileReq)
    (logAt versionAt : Nat) (h : req.action = "mkdir") :
    ∃ r, (handleFilesStep env st user req logAt versionAt).responses = [r] ∧
      ResponseFor "mkdir" (failureOf env req) r := by
  rw [failureOf_mkdir env req h]
  unfold handleFilesStep
  simp only []
  rw [if_neg (show ¬ req.action = "list" by rw [h]; decide),
    if_neg (show ¬ req.action = "cat" by rw [h]; decide),
    if_neg (show ¬ req.action = "read" by rw [h]; decide),
    if_neg (show ¬ req.action = "write" by rw [h]; decide),
    if_neg (show ¬ req.action = "rm" by rw [h]; decide), if_pos h]
  unfold plainAnswer
  cases env.mkdirAll (cleanPathOf env req.path) with
  | some msg => exact ⟨_, rfl, by simp [ResponseFor, List.lookup]⟩
  | none => exact ⟨_, rfl, by simp [ResponseFor, List.lookup]⟩

/-- The failure of a `rename` request, read off the environment. -/
theorem failureOf_rename (env : FsEnv) (req : FileReq) (h : req.action = "rename") :
    failureOf env req =
      env.rename (cleanPathOf env req.path) (env.clean req.newPath) := by
  unfold failureOf
  simp only []
  rw [if_neg (show ¬ req.action = "list" by rw [h]; decide),
    if_neg (show ¬ req.action = "cat" by rw [h]; decide),
    if_neg (show ¬ req.action = "read" by rw [h]; decide),
    if_neg (show ¬ req.action = "write" by rw [h]; decide),
    if_neg (show ¬ req.action = "rm" by rw [h]; decide),
    if_neg (show ¬ req.action = "mkdir" by rw [h]; decide), if_pos h]

/-- The response to a `rename` request has the shape `ResponseFor` for its failure. -/
theorem responses_rename (env : FsEnv) (st : Store) (user : Option Claims) (req : FileReq)
    (logAt versionAt : Nat) (h : req.action = "rename") :
    ∃ r, (handleFilesStep env st user req logAt versionAt).responses = [r] ∧
      ResponseFor "rename" (failureOf env req) r := by
  rw [failureOf_rename env req h]
  unfold handleFilesStep
  simp only []
  rw [if_neg (show ¬ req.action = "list" by rw [h]; decide),
    if_neg (show ¬ req.action = "cat" by rw [h]; decide),
    if_neg (show ¬ req.action = "read" by rw [h]; decide),
    if_neg (show ¬ req.action = "write" by rw [h]; decide),
    if_neg (show ¬ req.action = "rm" by rw [h]; decide),
    if_neg (show ¬ req.action = "mkdir" by rw [h]; decide), if_pos h]
  unfold plainAnswer
  cases env.rename (cleanPathOf env req.path) (env.clean req.newPath) with
  | some msg => exact ⟨_, rfl, by simp [ResponseFor, List.lookup]⟩
  | none => exact ⟨_, rfl, by simp [ResponseFor, List.lookup]⟩

/-- The failure of a `copy` request, read off the environment. -/
theorem failureOf_copy (env : FsEnv) (req : FileReq) (h : req.action = "copy") :
    failureOf env req =
      env.copy (cleanPathOf env req.path) (env.clean req.newPath) := by
  unfold failureOf
  simp only []
  rw [if_neg (show ¬ req.action = "list" by rw [h]; decide),
    if_neg (show ¬ req.action = "cat" by rw [h]; decide),
    if_neg (show ¬ req.action = "read" by rw [h]; decide),
    if_neg (show ¬ req.action = "write" by rw [h]; decide),
    if_neg (show ¬ req.action = "rm" by rw [h]; decide),
    if_neg (show ¬ req.action = "mkdir" by rw [h]; decide),
    if_neg (show ¬ req.action = "rename" by rw [h]; decide), if_pos h]

/-- The response to a `copy` request has the shape `ResponseFor` for its failure. -/
theorem responses_copy (env : FsEnv) (st : Store) (user : Option Claims) (req : FileReq)
    (logAt versionAt : Nat) (h : req.action = "copy") :
    ∃ r, (handleFilesStep env st user req logAt versionAt).responses = [r] ∧
      ResponseFor "copy" (failureOf env req) r := by
  rw [failureOf_copy env req h]
  unfold handleFilesStep
  simp only []
  rw [if_neg (show ¬ req.action = "list" by rw [h]; decide),
    if_neg (show ¬ req.action = "cat" by rw [h]; decide),
    if_neg (show ¬ req.action = "read" by rw [h]; decide),
    if_neg (show ¬ req.action = "write" by rw [h]; decide),
    if_neg (show ¬ req.action = "rm" by rw [h]; decide),
    if_neg (show ¬ req.action = "mkdir" by rw [h]; decide),
    if_neg (show ¬ req.action = "rename" by rw [h]; decide), if_pos h]
  unfold plainAnswer
  cases env.copy (cleanPathOf env req.path) (env.clean req.newPath) with
  | some msg => exact ⟨_, rfl, by simp [ResponseFor, List.lookup]⟩
  | none => exact ⟨_, rfl, by simp [ResponseFor, List.lookup]⟩

/-- The failure of a `stats` request, read off the environment. -/
theorem failureOf_stats (env : FsEnv) (req : FileReq) (h : req.action = "stats") :
    failureOf env req =
      none := by
  unfold failureOf
  simp only []
  rw [if_neg (show ¬ req.action = "list" by rw [h]; decide),
    if_neg (show ¬ req.action = "cat" by rw [h]; decide),
    if_neg (show ¬ req.action = "read" by rw [h]; decide),
    if_neg (show ¬ req.action = "write" by rw [h]; decide),
    if_neg (show ¬ req.action = "rm" by rw [h]; decide),
    if_neg (show ¬ req.action = "mkdir" by rw [h]; decide),
    if_neg (show ¬ req.action = "rename" by rw [h]; decide),
    if_neg (show ¬ req.action = "copy" by rw [h]; decide)]

/-- The response to a `stats` request has the shape `ResponseFor` for its failure. -/
theorem responses_stats (env : FsEnv) (st : Store) (user : Option Claims) (req : FileReq)
    (logAt versionAt : Nat) (h : req.action = "stats") :
    ∃ r, (handleFilesStep env st user req logAt versionAt).responses = [r] ∧
      ResponseFor "stats" (failureOf env req) r := by
  rw [failureOf_stats env req h]
  unfold handleFilesStep
  simp only []
  rw [if_neg (show ¬ req.action = "list" by rw [h]; decide),
    if_neg (show ¬ req.action = "cat" by rw [h]; decide),
    if_neg (show ¬ req.action = "read" by rw [h]; decide),
    if_neg (show ¬ req.action = "write" by rw [h]; decide),
    if_neg (show ¬ req.action = "rm" by rw [h]; decide),
    if_neg (show ¬ req.action = "mkdir" by rw [h]; decide),
    if_neg (show ¬ req.action = "rename" by rw [h]; decide),
    if_neg (show ¬ req.action = "copy" by rw [h]; decide), if_pos h]
  exact ⟨_, rfl, by simp [ResponseFor, List.lookup]⟩

/-- The failure of a `diskusage` request, read off the environment. -/
theorem failureOf_diskusage (env : FsEnv) (req : FileReq) (h : req.action = "diskusage") :
    failureOf env req =
      none := by
  unfold failureOf
  simp only []
  rw [if_neg (show ¬ req.action = "list" by rw [h]; decide),
    if_neg (show ¬ req.action = "cat" by rw [h]; decide),
    if_neg (show ¬ req.action = "read" by rw [h]; decide),
    if_neg (show ¬ req.action = "write" by rw [h]; decide),
    if_neg (show ¬ req.action = "rm" by rw [h]; decide),
    if_neg (show ¬ req.action = "mkdir" by rw [h]; decide),
    if_neg (show ¬ req.action = "rename" by rw [h]; decide),
    if_neg (show ¬ req.action = "copy" by rw [h]; decide)]

/-- The response to a `diskusage` request has the shape `ResponseFor` for its failure. -/
theorem responses_diskusage (env : FsEnv) (st : Store) (user : Option Claims) (req : FileReq)
    (logAt versionAt : Nat) (h : req.action = "diskusage") :
    ∃ r, (handleFilesStep env st user req logAt versionAt).responses = [r] ∧
      ResponseFor "diskusage" (failureOf env req) r := by
  rw [failureOf_diskusage env req h]
  unfold handleFilesStep
  simp only []
  rw [if_neg (show ¬ req.action = "list" by rw [h]; decide),
    if_neg (show ¬ req.action = "cat" by rw [h]; decide),
    if_neg (show ¬ req.action = "read" by rw [h]; decide),
    if_neg (show ¬ req.action = "write" by rw [h]; decide),
    if_neg (show ¬ req.action = "rm" by rw [h]; decide),
    if_neg (show ¬ req.action = "mkdir" by rw [h]; decide),
    if_neg (show ¬ req.action = "rename" by rw [h]; decide),
    if_neg (show ¬ req.action = "copy" by rw [h]; decide),
    if_neg (show ¬ req.action = "stats" by rw [h]; decide), if_pos h]
  exact ⟨_, rfl, by simp [ResponseFor, List.lookup]⟩

/-- What the shape `ResponseFor` says about the fields `error` and `action`, for an action
that is one of the six without the field on failure, or `list` or `cat`, or cannot fail. -/
theorem responseFor_fields (action : String) (failure : Option String)
    (r : List (String × JVal)) (h : ResponseFor action failure r)
    (hcase : action ∈ ["read", "write", "rm", "mkdir", "rename", "copy"] ∨
      (action = "list" ∨ action = "cat") ∨ failure = none) :
    (failure = none →
      List.lookup "error" r = none ∧ List.lookup "action" r = some (JVal.str action)) ∧
    (∀ msg, failure = some msg →
      List.lookup "error" r = some (JVal.str msg) ∧
      (action ∈ ["read", "write", "rm", "mkdir", "rename", "copy"] →
        List.lookup "action" r = none) ∧
      (action ∈ ["list", "cat"] → List.lookup "action" r = some (JVal.str action))) ∧
    ((∃ msg, List.lookup "error" r = some (JVal.str msg)) ∨
      List.lookup "action" r = some (JVal.str action)) ∧
    (List.lookup "error" r = none → List.lookup "action" r = some (JVal.str action)) ∧
    (List.lookup "action" r = none →
      action ∈ ["read", "write", "rm", "mkdir", "rename", "copy"]) := by
  cases failure with
  | none =>
    have h1 : List.lookup "error" r = none ∧
        List.lookup "action" r = some (JVal.str action) := h
    refine ⟨fun _ => h1, (fun msg hm => by cases hm), Or.inr h1.2, fun _ => h1.2, ?_⟩
    intro hnone
    rw [h1.2] at hnone
    cases hnone
  | some m =>
    have h1 : List.lookup "error" r = some (JVal.str m) ∧
        List.lookup "action" r =
          (if action = "list" ∨ action = "cat" then some (JVal.str action) else none) := h
    have hsix : action ∈ ["read", "write", "rm", "mkdir", "rename", "copy"] →
        ¬ (action = "list" ∨ action = "cat") := by
      intro hmem
      simp only [List.mem_cons, List.mem_singleton, List.not_mem_nil, or_false] at hmem
      rcases hmem with e | e | e | e | e | e <;> (rw [e]; decide)
    refine ⟨(fun hf => by cases hf), ?_, Or.inl ⟨m, h1.1⟩, ?_, ?_⟩
    · intro msg hm
      cases hm
      refine ⟨h1.1, fun hmem => ?_, fun hmem => ?_⟩
      · rw [h1.2, if_neg (hsix hmem)]
      · have hlc : action = "list" ∨ action = "cat" := by
          simpa using hmem
        rw [h1.2, if_pos hlc]
    · intro herr
      rw [h1.1] at herr
      cases herr
    · intro hnone
      by_cases hlc : action = "list" ∨ action = "cat"
      · rw [h1.2, if_pos hlc] at hnone
        cases hnone
      · rcases hcase with hc | hc | hc
        · exact hc
        · exact absurd hc hlc
        · cases hc

/-- Counterexample to claim C12 as stated: on a read-only file system the supported action
`rm` is answered with a failure response that carries `success` and `error` but no `action`
field. -/
theorem rm_failure_without_action :
    rmReq.action ∈ supportedActions ∧
    (handleFilesStep readOnlyFs emptyStore none rmReq 0 0).responses =
      [[("success", JVal.bool false), ("error", JVal.str "read-only file system")]] ∧
    (handleFilesStep readOnlyFs emptyStore none rmReq 0 0).responses.map
      (fun r => (List.lookup "action" r).isSome) = [false] := by
  refine ⟨by decide, rfl, by decide⟩

/-- Claim C12, amended: for every file-operation request with a supported action exactly one
response is sent. When the operation succeeds, the response has no `error` field and its
`action` field names the request's action. When the operation fails, the response carries
the error text in its `error` field; a failure response to `read`, `write`, `rm`, `mkdir`,
`rename` or `copy` has no `action` field, and a failure response to `list` or `cat` names
the action as well. Hence every response carries an `error` string or names the action, it
names the action whenever it carries no error, and only a response to one of the six actions
can lack the `action` field. -/
theorem response_action_or_error (env : FsEnv) (st : Store) (user : Option Claims)
    (req : FileReq) (logAt versionAt : Nat) (h : req.action ∈ supportedActions) :
    ∃ r, (handleFilesStep env st user req logAt versionAt).responses = [r] ∧
      (failureOf env req = none →
        List.lookup "error" r = none ∧
        List.lookup "action" r = some (JVal.str req.action)) ∧
      (∀ msg, failureOf env req = some msg →
        List.lookup "error" r = some (JVal.str msg) ∧
        (req.action ∈ ["read", "write", "rm", "mkdir", "rename", "copy"] →
          List.lookup "action" r = none) ∧
        (req.action ∈ ["list", "cat"] →
          List.lookup "action" r = some (JVal.str req.action))) ∧
      ((∃ msg, List.lookup "error" r = some (JVal.str msg)) ∨
        List.lookup "action" r = some (JVal.str req.action)) ∧
      (List.lookup "error" r = none → List.lookup "action" r = some (JVal.str req.action)) ∧
      (List.lookup "action" r = none →
        req.action ∈ ["read", "write", "rm", "mkdir", "rename", "copy"]) := by
  simp only [supportedActions, List.mem_cons, List.mem_singleton, List.not_mem_nil,
    or_false] at h
  rcases h with h | h | h | h | h | h | h | h | h | h
  · obtain ⟨r, hr, hs⟩ := responses_list env st user req logAt versionAt h
    rw [h]
    exact ⟨r, hr, responseFor_fields _ _ r hs (Or.inr (Or.inl (Or.inl rfl)))⟩
  · obtain ⟨r, hr, hs⟩ := responses_cat env st user req logAt versionAt h
    rw [h]
    exact ⟨r, hr, responseFor_fields _ _ r hs (Or.inr (Or.inl (Or.inr rfl)))⟩
  · obtain ⟨r, hr, hs⟩ := responses_read env st user req logAt versionAt h
    rw [h]
    exact ⟨r, hr, responseFor_fields _ _ r hs (Or.inl (by decide))⟩
  · obtain ⟨r, hr, hs⟩ := responses_write env st user req logAt versionAt h
    rw [h]
    exact ⟨r, hr, responseFor_fields _ _ r hs (Or.inl (by decide))⟩
  · obtain ⟨r, hr, hs⟩ := responses_rm env st user req logAt versionAt h
    rw [h]
    exact ⟨r, hr, responseFor_fields _ _ r hs (Or.inl (by decide))⟩
  · obtain ⟨r, hr, hs⟩ := responses_mkdir env st user req logAt versionAt h
    rw [h]
    exact ⟨r, hr, responseFor_fields _ _ r hs (Or.inl (by decide))⟩
  · obtain ⟨r, hr, hs⟩ := responses_rename env st user req logAt versionAt h
    rw [h]
    exact ⟨r, hr, responseFor_fields _ _ r hs (Or.inl (by decide))⟩
  · obtain ⟨r, hr, hs⟩ := responses_copy env st user req logAt versionAt h
    rw [h]
    exact ⟨r, hr, responseFor_fields _ _ r hs (Or.inl (by decide))⟩
  · obtain ⟨r, hr, hs⟩ := responses_stats env st user req logAt versionAt h
    rw [h]
    exact ⟨r, hr, responseFor_fields _ _ r hs
      (Or.inr (Or.inr (failureOf_stats env req h)))⟩
  · obtain ⟨r, hr, hs⟩ := responses_diskusage env st user req logAt versionAt h
    rw [h]
    exact ⟨r, hr, responseFor_fields _ _ r hs
      (Or.inr (Or.inr (failureOf_diskusage env req h)))⟩

/-- The `write` branch of the switch. -/
theorem handleFilesStep_write (env : FsEnv) (st : Store) (user : Option Claims) (req : FileReq)
    (logAt versionAt : Nat) (h : req.action = "write") :
    handleFilesStep env st user req logAt versionAt =
      handleWrite env st user req (cleanPathOf env req.path) logAt versionAt := by
  unfold handleFilesStep
  simp only []
  rw [if_neg (show ¬ req.action = "list" by rw [h]; decide),
    if_neg (show ¬ req.action = "cat" by rw [h]; decide),
    if_neg (show ¬ req.action = "read" by rw [h]; decide), if_pos h]

/-- Every branch of the switch other than `write` leaves the store as it is. -/
theorem store_of_not_write (env : FsEnv) (st : Store) (user : Option Claims) (req : FileReq)
    (logAt versionAt : Nat) (h : req.action ≠ "write") :
    (handleFilesStep env st user req logAt versionAt).store = st := by
  unfold handleFilesStep
  simp only []
  by_cases h0 : req.action = "list"
  · rw [if_pos h0]
    split <;> rfl
  · rw [if_neg h0]
    by_cases h1 : req.action = "cat"
    · rw [if_pos h1]
      split <;> rfl
    · rw [if_neg h1]
      by_cases h2 : req.action = "read"
      · rw [if_pos h2]
        split <;> rfl
      · rw [if_neg h2]
        rw [if_neg h]
        by_cases h4 : req.action = "rm"
        · rw [if_pos h4]
        · rw [if_neg h4]
          by_cases h5 : req.action = "mkdir"
          · rw [if_pos h5]
          · rw [if_neg h5]
            by_cases h6 : req.action = "rename"
            · rw [if_pos h6]
            · rw [if_neg h6]
              by_cases h7 : req.action = "copy"
              · rw [if_pos h7]
              · rw [if_neg h7]
                by_cases h8 : req.action = "stats"
                · rw [if_pos h8]
                · rw [if_neg h8]
                  by_cases h9 : req.action = "diskusage"
                  · rw [if_pos h9]
                  · rw [if_neg h9]
                    by_cases h10 : req.action = "get_logs"
                    · rw [if_pos h10]
                    · rw [if_neg h10]

/-- The decoding step of `handleWrite` in terms of `WriteData`. -/
theorem decoded_eq_some (env : FsEnv) (req : FileReq) (data : List Nat) :
    (if req.isBase64 then env.base64Decode req.content else some (stringBytes req.content)) =
      some data ↔ WriteData env req data := by
  unfold WriteData
  cases hb : req.isBase64 <;> simp [eq_comm]

/-- Claim C15: for every file-operation request and store state, the handler leaves the
store unchanged unless the action is `write`, the identity is known and the file write of
the requested bytes succeeded; so every request with another action, every failed write and
every write without identity adds no ActivityLog and no FileVersion. The sessions are never
changed. -/
theorem store_changes_only_on_write (env : FsEnv) (st : Store) (user : Option Claims)
    (req : FileReq) (logAt versionAt : Nat) :
    ((handleFilesStep env st user req logAt versionAt).store = st ∨
      (req.action = "write" ∧ (∃ claims, user = some claims) ∧
        ∃ data, WriteData env req data ∧
          env.writeFile (cleanPathOf env req.path) data = none)) ∧
    (handleFilesStep env st user req logAt versionAt).store.sessions = st.sessions := by
  by_cases hw : req.action = "write"
  · rw [handleFilesStep_write env st user req logAt versionAt hw]
    unfold handleWrite
    simp only []
    generalize hdec : (if req.isBase64 = true then env.base64Decode req.content
        else some (stringBytes req.content)) = decoded
    cases decoded with
    | none => exact ⟨Or.inl rfl, rfl⟩
    | some data =>
      have hdata := (decoded_eq_some env req data).mp hdec
      dsimp only
      generalize hwf : env.writeFile (cleanPathOf env req.path) data = written
      cases written with
      | some err => exact ⟨Or.inl rfl, rfl⟩
      | none =>
        cases user with
        | none => exact ⟨Or.inl rfl, rfl⟩
        | some claims =>
          refine ⟨Or.inr ⟨hw, ⟨claims, rfl⟩, data, hdata, hwf⟩, ?_⟩
          simp only [Store.createLog, Store.createVersion]
          cases hacc : st.acceptsWrites <;> simp [hacc]
  · have h := store_of_not_write env st user req logAt versionAt hw
    exact ⟨Or.inl h, by rw [h]⟩


/-- Counterexample to claim C13 as stated: user 1 writes "hello" to /tmp/a.txt, the file
write succeeds, the store rejects both inserts (it stays unchanged), and the response is the
success response, with no error. -/
theorem write_succeeds_on_locked_store :
    lockedStore.acceptsWrites = false ∧
    (handleFilesStep sampleFs lockedStore (some sampleClaims) helloReq 10 11).responses =
      [[("success", JVal.bool true), ("action", JVal.str "write"),
        ("requestId", JVal.int 7)]] ∧
    (handleFilesStep sampleFs lockedStore (some sampleClaims) helloReq 10 11).store =
      lockedStore ∧
    (handleFilesStep sampleFs lockedStore (some sampleClaims) helloReq 10 11).fsOps =
      [FsOp.writeFile "/tmp/a.txt" [104, 101, 108, 108, 111]] := by
  refine ⟨rfl, rfl, by decide, by decide⟩

/-- Claim C13, amended: for every write request by a known identity whose file write
succeeds, the response is the success response (success flag, action `write`, the request
id) whether or not the store accepts the inserts; when it does not, the store is left
unchanged and the failure is not surfaced to the client. -/
theorem write_response_ignores_store (env : FsEnv) (st : Store) (claims : Claims)
    (req : FileReq) (logAt versionAt : Nat) (data : List Nat)
    (haction : req.action = "write") (hdata : WriteData env req data)
    (hok : env.writeFile (cleanPathOf env req.path) data = none) :
    (handleFilesStep env st (some claims) req logAt versionAt).responses =
      [[("success", JVal.bool true), ("action", JVal.str "write"),
        ("requestId", req.dataGet "requestId")]] ∧
    (st.acceptsWrites = false →
      (handleFilesStep env st (some claims) req logAt versionAt).store = st) := by
  have hdec := (decoded_eq_some env req data).mpr hdata
  rw [handleFilesStep_write env st (some claims) req logAt versionAt haction]
  simp only [handleWrite, hdec, hok]
  refine ⟨trivial, fun hlocked => ?_⟩
  simp [Store.createLog, Store.createVersion, hlocked]

/-- Witness of claim C13: the write of "hello" by user 1 on the store that rejects writes. -/
theorem write_response_ignores_store_witness :
    (handleFilesStep sampleFs lockedStore (some sampleClaims) helloReq 10 11).responses =
      [[("success", JVal.bool true), ("action", JVal.str "write"),
        ("requestId", helloReq.dataGet "requestId")]] ∧
    (lockedStore.acceptsWrites = false →
      (handleFilesStep sampleFs lockedStore (some sampleClaims) helloReq 10 11).store =
        lockedStore) :=
  write_response_ignores_store sampleFs lockedStore sampleClaims helloReq 10 11
    [104, 101, 108, 108, 111] rfl (Or.inr ⟨by decide, by decide⟩) rfl

/-- Claim C14: for every request path, the path used by the file action is its cleaned form,
except that the root `/` is used when the cleaned form is `.` (or empty, which a lexical
cleaner never returns); hence the path used is never empty and never `.`, and it is the path
handed to the file system (shown for `mkdir`). With a lexical cleaner in the manner of
`filepath.Clean`, the empty path and `.` both clean to `.` and so give the root. -/
theorem cleanPathOf_spec (env : FsEnv) (p : String) :
    (env.clean p ≠ "." → env.clean p ≠ "" → cleanPathOf env p = env.clean p) ∧
    (env.clean p = "." → cleanPathOf env p = "/") ∧
    (env.clean p = "" → cleanPathOf env p = "/") ∧
    cleanPathOf env p ≠ "" ∧ cleanPathOf env p ≠ "." ∧
    (∀ (st : Store) (user : Option Claims) (req : FileReq) (logAt versionAt : Nat),
      req.action = "mkdir" →
      (handleFilesStep env st user req logAt versionAt).fsOps =
        [FsOp.mkdirAll (cleanPathOf env req.path)]) ∧
    (lexicalClean "" = "." ∧ lexicalClean "." = "." ∧
      cleanPathOf unixFs "" = "/" ∧ cleanPathOf unixFs "." = "/" ∧
      cleanPathOf unixFs "/tmp//a/../b.txt" = "/tmp/b.txt") := by
  refine ⟨?_, ?_, ?_, ?_, ?_, ?_, by decide⟩
  · intro h1 h2
    simp [cleanPathOf, h1, h2]
  · intro h
    simp [cleanPathOf, h]
  · intro h
    simp [cleanPathOf, h]
  · unfold cleanPathOf
    simp only []
    split
    · decide
    · rename_i h
      exact fun hempty => h (Or.inr hempty)
  · unfold cleanPathOf
    simp only []
    split
    · decide
    · rename_i h
      exact fun hdot => h (Or.inl hdot)
  · intro st user req logAt versionAt h
    unfold handleFilesStep
    simp only []
    rw [if_neg (show ¬ req.action = "list" by rw [h]; decide),
      if_neg (show ¬ req.action = "cat" by rw [h]; decide),
      if_neg (show ¬ req.action = "read" by rw [h]; decide),
      if_neg (show ¬ req.action = "write" by rw [h]; decide),
      if_neg (show ¬ req.action = "rm" by rw [h]; decide), if_pos h]

/-- The counting loop of `stats` adds to the counters the number of entries that are not
directories, the number of directories, and the sizes of the entries that are not
directories. -/
theorem statsLoop_eq (files : List FileInfo) (acc : Int × Int × Int) :
    statsLoop files acc =
      (acc.1 + ((files.filter (fun f => !f.isDir)).length : Int),
       acc.2.1 + ((files.filter (fun f => f.isDir)).length : Int),
       acc.2.2 + ((files.filter (fun f => !f.isDir)).map (fun f => f.size)).sum) := by
  induction files generalizing acc with
  | nil => simp [statsLoop]
  | cons f fs ih =>
    have hstep : statsLoop (f :: fs) acc =
        statsLoop fs (if f.isDir then (acc.1, acc.2.1 + 1, acc.2.2)
          else (acc.1 + 1, acc.2.1, acc.2.2 + f.size)) := rfl
    rw [hstep, ih]
    cases hd : f.isDir
    · simp [hd]
      refine ⟨by omega, by omega⟩
    · simp [hd]
      omega

/-- The entries that are not directories and the directories make up the listing. -/
theorem files_add_folders (files : List FileInfo) :
    (files.filter (fun f => !f.isDir)).length + (files.filter (fun f => f.isDir)).length =
      files.length := by
  induction files with
  | nil => rfl
  | cons f fs ih =>
    cases hd : f.isDir <;> simp [List.filter_cons, hd] <;> omega

/-- Counterexample to claim C18 as stated: for a listing of one directory of size 4096 and
one file of size 10 the `stats` action reports `totalSize` 10, while the sizes of the
immediate children add up to 4106. -/
theorem stats_counts_files_only :
    (handleFilesStep dirFs emptyStore none statsReq 0 0).responses =
      [[("success", JVal.bool true), ("action", JVal.str "stats"),
        ("data", JVal.obj [("fileCount", JVal.int 1), ("folderCount", JVal.int 1),
          ("totalSize", JVal.int 10)])]] ∧
    (dirFs.readDir (cleanPathOf dirFs statsReq.path)).toOption.map
      (fun files => (files.map (fun f => f.size)).sum) = some 4106 := by
  refine ⟨rfl, by decide⟩

/-- Claim C18, amended: for every directory listing returned for the path, the `stats`
action reports as `fileCount` the number of immediate children that are not directories, as
`folderCount` the number that are directories (the two add up to the number of immediate
children), and as `totalSize` the sum of the sizes of the immediate children that are not
directories. -/
theorem stats_counts (env : FsEnv) (st : Store) (user : Option Claims) (req : FileReq)
    (logAt versionAt : Nat) (files : List FileInfo) (haction : req.action = "stats")
    (hdir : env.readDir (cleanPathOf env req.path) = .ok files) :
    (handleFilesStep env st user req logAt versionAt).responses =
      [[("success", JVal.bool true), ("action", JVal.str "stats"),
        ("data", JVal.obj
          [("fileCount", JVal.int ((files.filter (fun f => !f.isDir)).length : Int)),
           ("folderCount", JVal.int ((files.filter (fun f => f.isDir)).length : Int)),
           ("totalSize", JVal.int
              ((files.filter (fun f => !f.isDir)).map (fun f => f.size)).sum)])]] ∧
    (files.filter (fun f => !f.isDir)).length + (files.filter (fun f => f.isDir)).length =
      files.length := by
  constructor
  · unfold handleFilesStep
    simp only []
    rw [if_neg (show ¬ req.action = "list" by rw [haction]; decide),
      if_neg (show ¬ req.action = "cat" by rw [haction]; decide),
      if_neg (show ¬ req.action = "read" by rw [haction]; decide),
      if_neg (show ¬ req.action = "write" by rw [haction]; decide),
      if_neg (show ¬ req.action = "rm" by rw [haction]; decide),
      if_neg (show ¬ req.action = "mkdir" by rw [haction]; decide),
      if_neg (show ¬ req.action = "rename" by rw [haction]; decide),
      if_neg (show ¬ req.action = "copy" by rw [haction]; decide), if_pos haction]
    simp only [hdir, statsLoop_eq]
    simp
  · exact files_add_folders files

/-- Witness of claim C12: the `rm` request on the read-only file system, where it fails with
the error text "read-only file system". -/
theorem response_action_or_error_witness :
    rmReq.action ∈ supportedActions ∧
    failureOf readOnlyFs rmReq = some "read-only file system" ∧
    ∃ r, (handleFilesStep readOnlyFs emptyStore none rmReq 0 0).responses = [r] ∧
      (failureOf readOnlyFs rmReq = none →
        List.lookup "error" r = none ∧
        List.lookup "action" r = some (JVal.str rmReq.action)) ∧
      (∀ msg, failureOf readOnlyFs rmReq = some msg →
        List.lookup "error" r = some (JVal.str msg) ∧
        (rmReq.action ∈ ["read", "write", "rm", "mkdir", "rename", "copy"] →
          List.lookup "action" r = none) ∧
        (rmReq.action ∈ ["list", "cat"] →
          List.lookup "action" r = some (JVal.str rmReq.action))) ∧
      ((∃ msg, List.lookup "error" r = some (JVal.str msg)) ∨
        List.lookup "action" r = some (JVal.str rmReq.action)) ∧
      (List.lookup "error" r = none →
        List.lookup "action" r = some (JVal.str rmReq.action)) ∧
      (List.lookup "action" r = none →
        rmReq.action ∈ ["read", "write", "rm", "mkdir", "rename", "copy"]) :=
  ⟨by decide, by decide,
    response_action_or_error readOnlyFs emptyStore none rmReq 0 0 (by decide)⟩

/-- Witness of claim C18: the listing of one directory of size 4096 and one file of size 10
gives one file, one folder and total size 10. -/
theorem stats_counts_witness :
    (handleFilesStep dirFs emptyStore none statsReq 0 0).responses =
      [[("success", JVal.bool true), ("action", JVal.str "stats"),
        ("data", JVal.obj [("fileCount", JVal.int 1), ("folderCount", JVal.int 1),
          ("totalSize", JVal.int 10)])]] :=
  (stats_counts dirFs emptyStore none statsReq 0 0 _ rfl rfl).1

end Vibeserver
